import Mathlib

/-!
# rest-wallets: the ledger transaction engine

A shallow embedding of the Go packages `models`, `repository`, `service` and
`handler` of `Yoshisoul/rest-wallets`, followed by theorems about them.

The PostgreSQL server and the `database/sql` driver are the environment of the
program.  They are represented by

* `DB`: the two tables, together with a journal of the driver calls issued;
* `Tx`: a transactional handle, which buffers the statements executed on it
  until `Commit` applies them (a `Rollback`, or a failed `Commit`, drops them);
* `repository.Env`: an environment record, one per operation, which fixes for
  every driver call of that operation whether it fails (and with which error),
  and which supplies the values of `uuid.New()` and `time.Now()`.

A statement executed on the `DB` handle itself is outside every transactional
scope and takes effect at once.  Balances are mathematical integers: the column
type of `wallets.amount` is declared in a migration, not in the Go sources, and
a store-side range error is one of the failures an `UPDATE` may report.
-/

namespace uuid

/-- The type `uuid.UUID`, represented by the number its 16 bytes encode. -/
abbrev UUID := Nat

/-- The zero identifier `uuid.Nil`. -/
def Nil : UUID := 0

end uuid

/-- An instant as returned by `time.Now()`. -/
abbrev Time := Nat

/-- Go `error` values: the sentinel `sql.ErrNoRows`, or any other error,
identified by its message. -/
inductive Error where
  | ErrNoRows
  | other (msg : String)
  deriving DecidableEq, Repr

/-- The text that the method `Error()` of an error value returns. -/
def Error.Message : Error → String
  | .ErrNoRows => "sql: no rows in result set"
  | .other msg => msg

namespace models

/-- Go: `type OperationType string`. -/
abbrev OperationType := String

/-- Go: `Deposit OperationType = "DEPOSIT"`. -/
def Deposit : OperationType := "DEPOSIT"

/-- Go: `Withdraw OperationType = "WITHDRAW"`. -/
def Withdraw : OperationType := "WITHDRAW"

/-- A row of the table `wallets`. -/
structure Wallet where
  WalletId : uuid.UUID
  UserId : Int
  Amount : Int
  CreatedAt : Time
  UpdatedAt : Time
  deriving DecidableEq, Repr

/-- A row of the table `transactions`. -/
structure Transaction where
  TransactionId : uuid.UUID
  WalletId : uuid.UUID
  OperationType : OperationType
  Amount : Int
  CreatedAt : Time
  deriving DecidableEq, Repr

/-- The body of a create-transaction request after binding. -/
structure TransactionInput where
  WalletId : uuid.UUID
  OperationType : OperationType
  Amount : Int
  deriving DecidableEq, Repr

/-- The zero value `models.Wallet{}`. -/
def Wallet.zero : Wallet := ⟨uuid.Nil, 0, 0, 0, 0⟩

/-- The zero value `models.Transaction{}`. -/
def Transaction.zero : Transaction := ⟨uuid.Nil, uuid.Nil, "", 0, 0⟩

end models

namespace sqlx

open models

/-- The SQL statements that the repository layer sends, with their arguments
bound. -/
inductive Stmt where
  /-- Statement `INSERT INTO transactions (...) values ($1, $2, $3, $4, $5) RETURNING transaction_id` -/
  | insertTransaction (id walletId : uuid.UUID) (op : OperationType) (amount : Int) (createdAt : Time)
  /-- Statement `SELECT amount FROM wallets WHERE wallet_id = $1 FOR UPDATE` -/
  | lockWallet (walletId : uuid.UUID)
  /-- Statement `UPDATE wallets SET amount = amount + $1, updated_at = $2 WHERE wallet_id = $3` -/
  | addAmount (amount : Int) (updatedAt : Time) (walletId : uuid.UUID)
  /-- Statement `UPDATE wallets SET amount = amount - $1, updated_at = $2 WHERE wallet_id = $3` -/
  | subAmount (amount : Int) (updatedAt : Time) (walletId : uuid.UUID)
  /-- The empty query string. -/
  | empty
  /-- Statement `INSERT INTO wallets (...) values ($1, $2, $3, $4, $5) RETURNING wallet_id` -/
  | insertWallet (id : uuid.UUID) (userId : Int) (amount : Int) (createdAt updatedAt : Time)
  /-- Statement `SELECT * FROM wallets WHERE user_id=$1 AND wallet_id=$2 FOR UPDATE` -/
  | lockWalletOfUser (userId : Int) (walletId : uuid.UUID)
  /-- Statement `DELETE FROM wallets WHERE user_id=$1 AND wallet_id=$2` -/
  | deleteWallet (userId : Int) (walletId : uuid.UUID)
  /-- Statement `SELECT * FROM wallets WHERE user_id=$1` -/
  | selectWalletsOfUser (userId : Int)
  /-- Statement `SELECT * FROM wallets WHERE user_id=$1 AND wallet_id=$2` -/
  | selectWalletOfUser (userId : Int) (walletId : uuid.UUID)
  /-- Statement `SELECT * FROM wallets WHERE wallet_id=$1` -/
  | selectWallet (walletId : uuid.UUID)
  /-- Statement `SELECT * FROM transactions` -/
  | selectTransactions
  /-- Statement `SELECT * FROM transactions WHERE transaction_id=$1` -/
  | selectTransaction (transactionId : uuid.UUID)
  deriving DecidableEq, Repr

/-- A call made on the database handle or on a transactional handle. -/
inductive Call where
  /-- Call `db.Begin()`. -/
  | Begin
  /-- Call `db.QueryRow`, `db.Get` or `db.Select`: a statement outside any scope. -/
  | Query (q : Stmt)
  /-- Call `tx.Exec`: a statement inside the scope of the handle. -/
  | Exec (q : Stmt)
  /-- Call `tx.Commit()`. -/
  | Commit
  /-- Call `tx.Rollback()`. -/
  | Rollback
  deriving DecidableEq, Repr

/-- The database behind `*sqlx.DB`: both tables and the journal of driver calls
(oldest first). -/
structure DB where
  wallets : List Wallet
  transactions : List Transaction
  journal : List Call
  deriving DecidableEq, Repr

/-- The handle `*sql.Tx`: the statements executed in its scope, not yet applied. -/
structure Tx where
  pending : List Stmt
  deriving DecidableEq, Repr

/-- The empty database. -/
def DB.empty : DB := ⟨[], [], []⟩

/-- Append a call to the journal. -/
def DB.note (db : DB) (c : Call) : DB :=
  { db with journal := db.journal ++ [c] }

/-- The effect of one statement on the tables.  Reads change nothing. -/
def Stmt.apply (q : Stmt) (db : DB) : DB :=
  match q with
  | .insertTransaction id walletId op amount createdAt =>
    { db with transactions := db.transactions ++ [⟨id, walletId, op, amount, createdAt⟩] }
  | .addAmount amount updatedAt walletId =>
    { db with wallets := db.wallets.map fun w =>
        if w.WalletId = walletId then
          { w with Amount := w.Amount + amount, UpdatedAt := updatedAt }
        else w }
  | .subAmount amount updatedAt walletId =>
    { db with wallets := db.wallets.map fun w =>
        if w.WalletId = walletId then
          { w with Amount := w.Amount - amount, UpdatedAt := updatedAt }
        else w }
  | .insertWallet id userId amount createdAt updatedAt =>
    { db with wallets := db.wallets ++ [⟨id, userId, amount, createdAt, updatedAt⟩] }
  | .deleteWallet userId walletId =>
    { db with wallets := db.wallets.filter fun w =>
        !(decide (w.UserId = userId) && decide (w.WalletId = walletId)) }
  | _ => db

/-- Apply buffered statements in the order they were executed. -/
def applyAll (qs : List Stmt) (db : DB) : DB :=
  qs.foldl (fun d q => q.apply d) db

/-- Go `db.Begin()`: opens a transactional scope, or fails. -/
def DB.Begin (db : DB) (fault : Option Error) : Except Error Tx × DB :=
  match fault with
  | some err => (.error err, db.note .Begin)
  | none => (.ok ⟨[]⟩, db.note .Begin)

/-- The column named by the `RETURNING` clause of an insert, as `Scan` reads it
from the inserted row. -/
def Stmt.returning : Stmt → uuid.UUID
  | .insertTransaction id _ _ _ _ => id
  | .insertWallet id _ _ _ _ => id
  | _ => uuid.Nil

/-- An insert sent with `db.QueryRow(...)` and read back with `Scan`: it runs
outside every scope, so on success its effect is immediate. -/
def DB.QueryRow (db : DB) (fault : Option Error) (q : Stmt) : Except Error uuid.UUID × DB :=
  match fault with
  | some err => (.error err, db.note (.Query q))
  | none => (.ok q.returning, (q.apply db).note (.Query q))

/-- The rows of `wallets` that a `SELECT` on that table yields. -/
def Stmt.walletRows (q : Stmt) (db : DB) : List Wallet :=
  match q with
  | .selectWalletsOfUser userId => db.wallets.filter fun w => decide (w.UserId = userId)
  | .selectWalletOfUser userId walletId =>
    db.wallets.filter fun w => decide (w.UserId = userId) && decide (w.WalletId = walletId)
  | .selectWallet walletId => db.wallets.filter fun w => decide (w.WalletId = walletId)
  | _ => []

/-- The rows of `transactions` that a `SELECT` on that table yields. -/
def Stmt.transactionRows (q : Stmt) (db : DB) : List Transaction :=
  match q with
  | .selectTransactions => db.transactions
  | .selectTransaction transactionId =>
    db.transactions.filter fun t => decide (t.TransactionId = transactionId)
  | _ => []

/-- Go `db.Get(&wallet, query, ...)`: the first row, `sql.ErrNoRows` when there
is none; the destination keeps its zero value on every error. -/
def DB.GetWallet (db : DB) (fault : Option Error) (q : Stmt) : (Wallet × Option Error) × DB :=
  match fault with
  | some err => ((Wallet.zero, some err), db.note (.Query q))
  | none =>
    match q.walletRows db with
    | [] => ((Wallet.zero, some .ErrNoRows), db.note (.Query q))
    | w :: _ => ((w, none), db.note (.Query q))

/-- Go `db.Get(&transaction, query, ...)` on the table `transactions`. -/
def DB.GetTransaction (db : DB) (fault : Option Error) (q : Stmt) :
    (Transaction × Option Error) × DB :=
  match fault with
  | some err => ((Transaction.zero, some err), db.note (.Query q))
  | none =>
    match q.transactionRows db with
    | [] => ((Transaction.zero, some .ErrNoRows), db.note (.Query q))
    | t :: _ => ((t, none), db.note (.Query q))

/-- Go `db.Select(&rows, query, ...)` into a slice declared with `var`: each row
is appended, so the slice stays `nil` (here `none`) when no row comes back. -/
def selectInto {α : Type} (rows : List α) : Option (List α) :=
  match rows with
  | [] => none
  | r :: rs => some (r :: rs)

/-- Go `db.Select(&wallets, query, ...)`. -/
def DB.SelectWallets (db : DB) (fault : Option Error) (q : Stmt) :
    (Option (List Wallet) × Option Error) × DB :=
  match fault with
  | some err => ((none, some err), db.note (.Query q))
  | none => ((selectInto (q.walletRows db), none), db.note (.Query q))

/-- Go `db.Select(&transactions, query)`. -/
def DB.SelectTransactions (db : DB) (fault : Option Error) (q : Stmt) :
    (Option (List Transaction) × Option Error) × DB :=
  match fault with
  | some err => ((none, some err), db.note (.Query q))
  | none => ((selectInto (q.transactionRows db), none), db.note (.Query q))

/-- Go `tx.Exec(...)`: on success the statement joins the scope of `tx`. -/
def Tx.Exec (tx : Tx) (db : DB) (fault : Option Error) (q : Stmt) : Option Error × Tx × DB :=
  match fault with
  | some err => (some err, tx, db.note (.Exec q))
  | none => (none, ⟨tx.pending ++ [q]⟩, db.note (.Exec q))

/-- Go `tx.Commit()`: on success the statements of the scope take effect. -/
def Tx.Commit (tx : Tx) (db : DB) (fault : Option Error) : Option Error × DB :=
  match fault with
  | some err => (some err, db.note .Commit)
  | none => (none, (applyAll tx.pending db).note .Commit)

/-- Go `tx.Rollback()`: the statements of the scope are dropped. -/
def Tx.Rollback (_tx : Tx) (db : DB) : DB :=
  db.note .Rollback

end sqlx

namespace repository

open sqlx

/-- What the environment decides during one operation of the system: the outcome
of each kind of driver call, the value of `uuid.New()`, and two successive
readings of `time.Now()`. -/
structure Env where
  /-- Outcome of `db.Begin()`. -/
  beginErr : Option Error
  /-- Outcome of an `INSERT ... RETURNING` and of the `Scan` of its row. -/
  insertErr : Option Error
  /-- Outcome of the `SELECT ... FOR UPDATE`. -/
  lockErr : Option Error
  /-- Outcome of the statement that updates the balance. -/
  updateErr : Option Error
  /-- Outcome of the `DELETE`. -/
  deleteErr : Option Error
  /-- Outcome of `tx.Commit()`. -/
  commitErr : Option Error
  /-- Failure of a plain `SELECT` for a reason other than an empty result. -/
  selectErr : Option Error
  /-- Value of `uuid.New()`. -/
  newId : uuid.UUID
  /-- First reading of `time.Now()`. -/
  now1 : Time
  /-- Second reading of `time.Now()`. -/
  now2 : Time
  deriving DecidableEq, Repr

/-- An environment in which every driver call succeeds. -/
def Env.ok (newId : uuid.UUID) (now1 now2 : Time) : Env :=
  ⟨none, none, none, none, none, none, none, newId, now1, now2⟩

/-- Go `type Wallet interface` of package `repository`, over a store of type `σ`. -/
structure Wallet (σ : Type) where
  Create : Int → σ → (uuid.UUID × Option Error) × σ
  GetAllFromUser : Int → σ → (Option (List models.Wallet) × Option Error) × σ
  GetByIdFromUser : Int → uuid.UUID → σ → (models.Wallet × Option Error) × σ
  GetById : uuid.UUID → σ → (models.Wallet × Option Error) × σ
  Delete : Int → uuid.UUID → σ → Option Error × σ

/-- Go `type Transaction interface` of package `repository`. -/
structure Transaction (σ : Type) where
  Create : models.TransactionInput → σ → (uuid.UUID × Option Error) × σ
  GetAll : σ → (Option (List models.Transaction) × Option Error) × σ
  GetById : uuid.UUID → σ → (models.Transaction × Option Error) × σ

/-- The `switch transaction.OperationType` that chooses the update statement;
with no `default` branch the query string stays empty. -/
def updateQuery (transaction : models.TransactionInput) (now : Time) : Stmt :=
  if transaction.OperationType = models.Deposit then
    .addAmount transaction.Amount now transaction.WalletId
  else if transaction.OperationType = models.Withdraw then
    .subAmount transaction.Amount now transaction.WalletId
  else .empty

/-- Go `(*TransactionPostgres).Create`. -/
def TransactionPostgres.Create (env : Env) (transaction : models.TransactionInput) (db : DB) :
    (uuid.UUID × Option Error) × DB :=
  match db.Begin env.beginErr with
  | (.error err, db) => ((uuid.Nil, some err), db)
  | (.ok tx, db) =>
    let query := Stmt.insertTransaction env.newId transaction.WalletId
      transaction.OperationType transaction.Amount env.now1
    match db.QueryRow env.insertErr query with
    | (.error err, db) => ((uuid.Nil, some err), tx.Rollback db)
    | (.ok id, db) =>
      match tx.Exec db env.lockErr (.lockWallet transaction.WalletId) with
      | (some err, tx, db) => ((uuid.Nil, some err), tx.Rollback db)
      | (none, tx, db) =>
        match tx.Exec db env.updateErr (updateQuery transaction env.now2) with
        | (some err, tx, db) => ((uuid.Nil, some err), tx.Rollback db)
        | (none, tx, db) =>
          match tx.Commit db env.commitErr with
          | (some err, db) => ((uuid.Nil, some err), db)
          | (none, db) => ((id, none), db)

/-- Go `(*TransactionPostgres).GetAll`. -/
def TransactionPostgres.GetAll (env : Env) (db : DB) :
    (Option (List models.Transaction) × Option Error) × DB :=
  db.SelectTransactions env.selectErr .selectTransactions

/-- Go `(*TransactionPostgres).GetById`. -/
def TransactionPostgres.GetById (env : Env) (transactionId : uuid.UUID) (db : DB) :
    (models.Transaction × Option Error) × DB :=
  db.GetTransaction env.selectErr (.selectTransaction transactionId)

/-- Go `(*WalletPostgres).Create`. -/
def WalletPostgres.Create (env : Env) (userId : Int) (db : DB) :
    (uuid.UUID × Option Error) × DB :=
  match db.QueryRow env.insertErr (.insertWallet env.newId userId 0 env.now1 env.now2) with
  | (.error err, db) => ((uuid.Nil, some err), db)
  | (.ok id, db) => ((id, none), db)

/-- Go `(*WalletPostgres).GetAllFromUser`. -/
def WalletPostgres.GetAllFromUser (env : Env) (userId : Int) (db : DB) :
    (Option (List models.Wallet) × Option Error) × DB :=
  db.SelectWallets env.selectErr (.selectWalletsOfUser userId)

/-- Go `(*WalletPostgres).GetByIdFromUser`. -/
def WalletPostgres.GetByIdFromUser (env : Env) (userId : Int) (walletId : uuid.UUID) (db : DB) :
    (models.Wallet × Option Error) × DB :=
  db.GetWallet env.selectErr (.selectWalletOfUser userId walletId)

/-- Go `(*WalletPostgres).GetById`. -/
def WalletPostgres.GetById (env : Env) (walletId : uuid.UUID) (db : DB) :
    (models.Wallet × Option Error) × DB :=
  db.GetWallet env.selectErr (.selectWallet walletId)

/-- Go `(*WalletPostgres).Delete`. -/
def WalletPostgres.Delete (env : Env) (userId : Int) (walletId : uuid.UUID) (db : DB) :
    Option Error × DB :=
  match db.Begin env.beginErr with
  | (.error err, db) => (some err, db)
  | (.ok tx, db) =>
    match tx.Exec db env.lockErr (.lockWalletOfUser userId walletId) with
    | (some err, tx, db) => (some err, tx.Rollback db)
    | (none, tx, db) =>
      match tx.Exec db env.deleteErr (.deleteWallet userId walletId) with
      | (some err, tx, db) => (some err, tx.Rollback db)
      | (none, tx, db) =>
        match tx.Commit db env.commitErr with
        | (some err, db) => (some err, db)
        | (none, db) => (none, db)

/-- Go `NewWalletPostgres(db)` seen through the interface `repository.Wallet`. -/
def NewWalletPostgres (env : Env) : Wallet DB where
  Create := WalletPostgres.Create env
  GetAllFromUser := WalletPostgres.GetAllFromUser env
  GetByIdFromUser := WalletPostgres.GetByIdFromUser env
  GetById := WalletPostgres.GetById env
  Delete := WalletPostgres.Delete env

/-- Go `NewTransactionPostgres(db)` seen through the interface
`repository.Transaction`. -/
def NewTransactionPostgres (env : Env) : Transaction DB where
  Create := TransactionPostgres.Create env
  GetAll := TransactionPostgres.GetAll env
  GetById := TransactionPostgres.GetById env

end repository

namespace service

/-- Go `type Wallet interface` of package `service`. -/
structure Wallet (σ : Type) where
  Create : Int → σ → (uuid.UUID × Option Error) × σ
  GetAllFromUser : Int → σ → (Option (List models.Wallet) × Option Error) × σ
  GetByIdFromUser : Int → uuid.UUID → σ → (models.Wallet × Option Error) × σ
  Delete : Int → uuid.UUID → σ → Option Error × σ

/-- Go `type Transaction interface` of package `service`. -/
structure Transaction (σ : Type) where
  Create : models.TransactionInput → σ → (uuid.UUID × Option Error) × σ
  GetAll : σ → (Option (List models.Transaction) × Option Error) × σ
  GetById : uuid.UUID → σ → (models.Transaction × Option Error) × σ

/-- Go `type TransactionService struct`. -/
structure TransactionService (σ : Type) where
  repo : repository.Transaction σ
  walletRepo : repository.Wallet σ

/-- Go `(*TransactionService).Create`. -/
def TransactionService.Create {σ : Type} (s : TransactionService σ)
    (transaction : models.TransactionInput) (st : σ) : (uuid.UUID × Option Error) × σ :=
  match s.walletRepo.GetById transaction.WalletId st with
  | ((_, some err), st) => ((uuid.Nil, some err), st)
  | ((_, none), st) => s.repo.Create transaction st

/-- Go `(*TransactionService).GetAll`. -/
def TransactionService.GetAll {σ : Type} (s : TransactionService σ) (st : σ) :
    (Option (List models.Transaction) × Option Error) × σ :=
  s.repo.GetAll st

/-- Go `(*TransactionService).GetById`. -/
def TransactionService.GetById {σ : Type} (s : TransactionService σ)
    (transactionId : uuid.UUID) (st : σ) : (models.Transaction × Option Error) × σ :=
  s.repo.GetById transactionId st

/-- Go `type WalletService struct`. -/
structure WalletService (σ : Type) where
  repo : repository.Wallet σ

/-- Go `(*WalletService).Create`. -/
def WalletService.Create {σ : Type} (s : WalletService σ) (userId : Int) (st : σ) :
    (uuid.UUID × Option Error) × σ :=
  s.repo.Create userId st

/-- Go `(*WalletService).GetAllFromUser`. -/
def WalletService.GetAllFromUser {σ : Type} (s : WalletService σ) (userId : Int) (st : σ) :
    (Option (List models.Wallet) × Option Error) × σ :=
  s.repo.GetAllFromUser userId st

/-- Go `(*WalletService).GetByIdFromUser`. -/
def WalletService.GetByIdFromUser {σ : Type} (s : WalletService σ) (userId : Int)
    (walletId : uuid.UUID) (st : σ) : (models.Wallet × Option Error) × σ :=
  s.repo.GetByIdFromUser userId walletId st

/-- Go `(*WalletService).Delete`. -/
def WalletService.Delete {σ : Type} (s : WalletService σ) (userId : Int)
    (walletId : uuid.UUID) (st : σ) : Option Error × σ :=
  s.repo.Delete userId walletId st

/-- Go `NewTransactionService(repo, walletRepo)` seen through the interface
`service.Transaction`. -/
def NewTransactionService {σ : Type} (repo : repository.Transaction σ)
    (walletRepo : repository.Wallet σ) : Transaction σ where
  Create := TransactionService.Create ⟨repo, walletRepo⟩
  GetAll := TransactionService.GetAll ⟨repo, walletRepo⟩
  GetById := TransactionService.GetById ⟨repo, walletRepo⟩

/-- Go `NewWalletService(repo)` seen through the interface `service.Wallet`. -/
def NewWalletService {σ : Type} (repo : repository.Wallet σ) : Wallet σ where
  Create := WalletService.Create ⟨repo⟩
  GetAllFromUser := WalletService.GetAllFromUser ⟨repo⟩
  GetByIdFromUser := WalletService.GetByIdFromUser ⟨repo⟩
  Delete := WalletService.Delete ⟨repo⟩

/-- Go `type Service struct`, without the `Authorization` member, which the
ledger does not use. -/
structure Service (σ : Type) where
  Wallet : Wallet σ
  Transaction : Transaction σ

end service

namespace http

/-- Go `http.StatusOK`. -/
def StatusOK : Nat := 200

/-- Go `http.StatusBadRequest`. -/
def StatusBadRequest : Nat := 400

/-- Go `http.StatusNotFound`. -/
def StatusNotFound : Nat := 404

/-- Go `http.StatusInternalServerError`. -/
def StatusInternalServerError : Nat := 500

end http

namespace handler

/-- The value of one member of a JSON request body, as far as decoding into a
Go field distinguishes values. -/
inductive Json where
  /-- The literal `null`. -/
  | null
  /-- A boolean literal. -/
  | bool (b : Bool)
  /-- A number literal in integer form. -/
  | integer (n : Int)
  /-- A number literal with a fraction or an exponent. -/
  | fraction
  /-- A string literal. -/
  | string (s : String)
  /-- An array or an object. -/
  | composite
  deriving DecidableEq, Repr

/-- The JSON object of a create-transaction request, by the struct field each
member is matched to; `none` is an absent member.  Other members are ignored by
the decoder. -/
structure TransactionBody where
  walletId : Option Json
  operationType : Option Json
  amount : Option Json
  deriving DecidableEq, Repr

/-- Decoding into a field of type `uuid.UUID`, a text unmarshaler: a string is
parsed, `null` and an absent member leave the zero value, anything else is a
type error.  `parse` is `uuid.Parse`. -/
def decodeUUID (parse : String → Option uuid.UUID) : Option Json → Option uuid.UUID
  | none => some uuid.Nil
  | some .null => some uuid.Nil
  | some (.string s) => parse s
  | some _ => none

/-- Decoding into a field of kind `string`. -/
def decodeString : Option Json → Option String
  | none => some ""
  | some .null => some ""
  | some (.string s) => some s
  | some _ => none

/-- Decoding into a field of type `int64`. -/
def decodeInt64 : Option Json → Option Int
  | none => some 0
  | some .null => some 0
  | some (.integer n) => if -(2 ^ 63) ≤ n ∧ n < 2 ^ 63 then some n else none
  | some _ => none

/-- The JSON decoding step of `c.BindJSON(&input)` for `models.TransactionInput`. -/
def decodeTransactionInput (parse : String → Option uuid.UUID) (body : TransactionBody) :
    Option models.TransactionInput :=
  match decodeUUID parse body.walletId, decodeString body.operationType,
      decodeInt64 body.amount with
  | some walletId, some op, some amount => some ⟨walletId, op, amount⟩
  | _, _, _ => none

/-- The validation step of `c.BindJSON(&input)`: each of the three fields is
tagged `binding:"required"`, which holds when the field differs from the zero
value of its type. -/
def validateRequired (input : models.TransactionInput) : Bool :=
  decide (input.WalletId ≠ uuid.Nil) && decide (input.OperationType ≠ "") &&
    decide (input.Amount ≠ 0)

/-- Go `c.BindJSON(&input)` for `models.TransactionInput`; `none` stands for a
returned error.  A body that is not a JSON object is `none`. -/
def BindJSON (parse : String → Option uuid.UUID) (body : Option TransactionBody) :
    Option models.TransactionInput :=
  match body with
  | none => none
  | some b =>
    match decodeTransactionInput parse b with
    | none => none
    | some input => if validateRequired input then some input else none

/-- The JSON document written as the response body. -/
inductive Payload where
  /-- The object `{"message": ...}`. -/
  | message (text : String)
  /-- The object `{"uuid": ...}`. -/
  | uuid (id : uuid.UUID)
  /-- The object `{"data": ...}` of `getAllTransactionsResponse`; a `nil` slice
  is encoded as `null`. -/
  | transactions (data : Option (List models.Transaction))
  /-- A `models.Transaction`. -/
  | transaction (t : models.Transaction)
  /-- The object `{"data": ...}` of `getAllWalletsResponse`. -/
  | wallets (data : Option (List models.Wallet))
  /-- A `models.Wallet`. -/
  | wallet (w : models.Wallet)
  /-- The object `{"status": ...}` of `statusResponse`. -/
  | status (text : String)
  deriving DecidableEq, Repr

/-- What a handler writes to the `gin.Context`. -/
structure Response where
  status : Nat
  body : Payload
  deriving DecidableEq, Repr

/-- Modelled from the spec: the helper `newErrorResponse` is declared in a file
of package `handler` that is not among the sources; as the handler tests expect,
it answers with the given status and the body `{"message": message}`. -/
def newErrorResponse (statusCode : Nat) (message : String) : Response :=
  ⟨statusCode, .message message⟩

/-- Go `type Handler struct`. -/
structure Handler (σ : Type) where
  services : service.Service σ

/-- Go `(*Handler).createTransaction`; `body` is the request body and `parse`
is `uuid.Parse`. -/
def Handler.createTransaction {σ : Type} (h : Handler σ) (parse : String → Option uuid.UUID)
    (body : Option TransactionBody) (st : σ) : Response × σ :=
  match BindJSON parse body with
  | none => (newErrorResponse http.StatusBadRequest "invalid input body", st)
  | some input =>
    match h.services.Transaction.Create input st with
    | ((_, some _), st) => (newErrorResponse http.StatusInternalServerError "service failure", st)
    | ((uuid, none), st) => (⟨http.StatusOK, .uuid uuid⟩, st)

/-- Go `(*Handler).getAllTransactions`. -/
def Handler.getAllTransactions {σ : Type} (h : Handler σ) (st : σ) : Response × σ :=
  match h.services.Transaction.GetAll st with
  | ((_, some _), st) => (newErrorResponse http.StatusInternalServerError "service failure", st)
  | ((transactions, none), st) => (⟨http.StatusOK, .transactions transactions⟩, st)

/-- Go `(*Handler).getTransactionById`; `param` is `c.Param("id")`. -/
def Handler.getTransactionById {σ : Type} (h : Handler σ) (parse : String → Option uuid.UUID)
    (param : String) (st : σ) : Response × σ :=
  match parse param with
  | none => (newErrorResponse http.StatusBadRequest "invalid id param", st)
  | some id =>
    match h.services.Transaction.GetById id st with
    | ((_, some err), st) =>
      if err.Message = "sql: no rows in result set" then
        (newErrorResponse http.StatusNotFound "transaction not found", st)
      else (newErrorResponse http.StatusInternalServerError "service failure", st)
    | ((transaction, none), st) => (⟨http.StatusOK, .transaction transaction⟩, st)

/-- Go `errors.Is(err, target)`; no error of the program wraps another, so the
chain of `err` is `err` itself. -/
def errorsIs (err target : Error) : Bool :=
  decide (err = target)

/-- Modelled from the spec: the helper `getUserId` is declared in a file of
package `handler` that is not among the sources.  Every wallet operation
receives the integer identifier of the authenticated user; `user` is the value
the identity middleware stored in the context, `none` when it stored nothing,
in which case, as the handler tests expect, the helper answers 500 with the
message "user id not found" and returns an error. -/
def getUserId (user : Option Int) : Except Response Int :=
  match user with
  | some id => .ok id
  | none => .error (newErrorResponse http.StatusInternalServerError "user id not found")

/-- Go `(*Handler).createWallet`. -/
def Handler.createWallet {σ : Type} (h : Handler σ) (user : Option Int) (st : σ) :
    Response × σ :=
  match getUserId user with
  | .error written => (written, st)
  | .ok id =>
    match h.services.Wallet.Create id st with
    | ((_, some _), st) => (newErrorResponse http.StatusInternalServerError "service failure", st)
    | ((uuid, none), st) => (⟨http.StatusOK, .uuid uuid⟩, st)

/-- Go `(*Handler).getAllWalletsFromUser`. -/
def Handler.getAllWalletsFromUser {σ : Type} (h : Handler σ) (user : Option Int) (st : σ) :
    Response × σ :=
  match getUserId user with
  | .error written => (written, st)
  | .ok id =>
    match h.services.Wallet.GetAllFromUser id st with
    | ((_, some err), st) => (newErrorResponse http.StatusInternalServerError err.Message, st)
    | ((wallets, none), st) => (⟨http.StatusOK, .wallets wallets⟩, st)

/-- Go `(*Handler).getWalletById`; `param` is `c.Param("id")`. -/
def Handler.getWalletById {σ : Type} (h : Handler σ) (parse : String → Option uuid.UUID)
    (user : Option Int) (param : String) (st : σ) : Response × σ :=
  match getUserId user with
  | .error written => (written, st)
  | .ok userId =>
    match parse param with
    | none => (newErrorResponse http.StatusBadRequest "invalid id param", st)
    | some id =>
      match h.services.Wallet.GetByIdFromUser userId id st with
      | ((_, some err), st) =>
        if errorsIs err .ErrNoRows then
          (newErrorResponse http.StatusNotFound "wallet not found", st)
        else (newErrorResponse http.StatusInternalServerError "service failure", st)
      | ((wallet, none), st) => (⟨http.StatusOK, .wallet wallet⟩, st)

/-- Go `(*Handler).deleteWallet`; `param` is `c.Param("id")`. -/
def Handler.deleteWallet {σ : Type} (h : Handler σ) (parse : String → Option uuid.UUID)
    (user : Option Int) (param : String) (st : σ) : Response × σ :=
  match getUserId user with
  | .error written => (written, st)
  | .ok userId =>
    match parse param with
    | none => (newErrorResponse http.StatusBadRequest "invalid id param", st)
    | some id =>
      match h.services.Wallet.Delete userId id st with
      | (some err, st) => (newErrorResponse http.StatusInternalServerError err.Message, st)
      | (none, st) => (⟨http.StatusOK, .status "ok"⟩, st)

end handler

namespace repository

/-- Go `type Repository struct`, without the `Authorization` member. -/
structure Repository (σ : Type) where
  Wallet : Wallet σ
  Transaction : Transaction σ

/-- Go `NewRepository(db)`. -/
def NewRepository (env : Env) : Repository sqlx.DB :=
  ⟨NewWalletPostgres env, NewTransactionPostgres env⟩

end repository

namespace service

/-- Go `NewService(repos)`. -/
def NewService {σ : Type} (repos : repository.Repository σ) : Service σ :=
  ⟨NewWalletService repos.Wallet, NewTransactionService repos.Transaction repos.Wallet⟩

end service

namespace ledger

open sqlx repository

/-- The row of `wallets` that a lookup by identifier yields, if any. -/
def findWallet (db : DB) (walletId : uuid.UUID) : Option models.Wallet :=
  ((Stmt.selectWallet walletId).walletRows db).head?

/-- Sum of the amounts of the records of one operation type that reference a
wallet. -/
def total (log : List models.Transaction) (walletId : uuid.UUID) (op : models.OperationType) :
    Int :=
  ((log.filter fun t => decide (t.WalletId = walletId) && decide (t.OperationType = op)).map
    fun t => t.Amount).sum

/-- Deposits minus withdrawals recorded in the log for a wallet. -/
def netEffect (log : List models.Transaction) (walletId : uuid.UUID) : Int :=
  total log walletId models.Deposit - total log walletId models.Withdraw

/-- The ledger invariant: every wallet in the store has the balance that the
log accounts for. -/
def ledgerInvariant (db : DB) : Prop :=
  ∀ w ∈ db.wallets, w.Amount = netEffect db.transactions w.WalletId

instance (db : DB) : Decidable (ledgerInvariant db) := by
  unfold ledgerInvariant; infer_instance

/-- The operations of the system that write to the store, each with the
environment it runs in. -/
inductive Op where
  /-- Wallet creation for a user. -/
  | createWallet (env : Env) (userId : Int)
  /-- The operation `recordTransaction`: `TransactionService.Create`. -/
  | recordTransaction (env : Env) (input : models.TransactionInput)
  /-- Wallet deletion by a user. -/
  | deleteWallet (env : Env) (userId : Int) (walletId : uuid.UUID)

/-- The store after one operation, run through the services that `NewService`
builds over the Postgres repositories. -/
def Op.run (op : Op) (db : DB) : DB :=
  match op with
  | .createWallet env userId =>
    ((service.NewService (NewRepository env)).Wallet.Create userId db).2
  | .recordTransaction env input =>
    ((service.NewService (NewRepository env)).Transaction.Create input db).2
  | .deleteWallet env userId walletId =>
    ((service.NewService (NewRepository env)).Wallet.Delete userId walletId db).2

/-- The store after a sequence of operations. -/
def runAll (ops : List Op) (db : DB) : DB :=
  ops.foldl (fun d op => op.run d) db

/-- A store with one wallet, of identifier 1, owned by user 7, with balance 0. -/
def oneWallet : DB := ⟨[⟨1, 7, 0, 5, 5⟩], [], []⟩

/-- An environment in which the balance update fails and every other call
succeeds. -/
def updateFails : Env :=
  { Env.ok 9 10 11 with updateErr := some (.other "some error") }

/-- A store with two wallets, of identifiers 1 and 2, each with balance 0. -/
def twoWallets : DB := ⟨[⟨1, 7, 0, 5, 5⟩, ⟨2, 8, 0, 6, 6⟩], [], []⟩

/-- A deposit of 100 on wallet 1. -/
def deposit100 : models.TransactionInput := ⟨1, models.Deposit, 100⟩

/-- A stand-in for `uuid.Parse` that knows the text form of identifier 1. -/
def parseOne (s : String) : Option uuid.UUID :=
  if s = "00000000-0000-0000-0000-000000000001" then some 1 else none

/-- The handler that `main` builds: `NewHandler(NewService(NewRepository(db)))`. -/
def postgresHandler (env : Env) : handler.Handler DB :=
  ⟨service.NewService (NewRepository env)⟩

/-- The request body
`{"walletId": "00000000-0000-0000-0000-000000000001", "operationType": "DEPOSIT", "amount": -5}`. -/
def negativeAmountBody : handler.TransactionBody :=
  ⟨some (.string "00000000-0000-0000-0000-000000000001"), some (.string "DEPOSIT"),
    some (.integer (-5))⟩

/-- The request body
`{"walletId": "00000000-0000-0000-0000-000000000001", "operationType": "INCORRECT", "amount": 100}`. -/
def incorrectTypeBody : handler.TransactionBody :=
  ⟨some (.string "00000000-0000-0000-0000-000000000001"), some (.string "INCORRECT"),
    some (.integer 100)⟩

/-- The request body
`{"walletId": "00000000-0000-0000-0000-000000000001", "operationType": "DEPOSIT", "amount": 0}`. -/
def zeroAmountBody : handler.TransactionBody :=
  ⟨some (.string "00000000-0000-0000-0000-000000000001"), some (.string "DEPOSIT"),
    some (.integer 0)⟩

/-- The elements of a Go slice value; the `nil` slice has none. -/
def elems {α : Type} (s : Option (List α)) : List α :=
  s.getD []

/-- Every operation that the routes of the system reach: the three writes of
`Op`, and the four reads, each with the environment it runs in. -/
inductive Operation where
  /-- Wallet creation, `recordTransaction` or wallet deletion. -/
  | write (op : Op)
  /-- Listing of the wallets of a user. -/
  | listWallets (env : Env) (userId : Int)
  /-- Retrieval of a wallet by a user. -/
  | getWallet (env : Env) (userId : Int) (walletId : uuid.UUID)
  /-- Listing of all transactions. -/
  | listTransactions (env : Env)
  /-- Retrieval of a transaction. -/
  | getTransaction (env : Env) (transactionId : uuid.UUID)

/-- The store after one operation of the system. -/
def Operation.run (op : Operation) (db : DB) : DB :=
  match op with
  | .write op => op.run db
  | .listWallets env userId =>
    ((service.NewService (NewRepository env)).Wallet.GetAllFromUser userId db).2
  | .getWallet env userId walletId =>
    ((service.NewService (NewRepository env)).Wallet.GetByIdFromUser userId walletId db).2
  | .listTransactions env =>
    ((service.NewService (NewRepository env)).Transaction.GetAll db).2
  | .getTransaction env transactionId =>
    ((service.NewService (NewRepository env)).Transaction.GetById transactionId db).2

/-- A log with one record, of identifier 9: a deposit of 100 on wallet 1. -/
def oneRecord : DB := ⟨[⟨1, 7, 100, 5, 11⟩], [⟨9, 1, "DEPOSIT", 100, 10⟩], []⟩

/-- The operations of a history: one `recordTransaction` per call, each call
given by its environment and its input. -/
def recordAll (calls : List (Env × models.TransactionInput)) : List Op :=
  calls.map fun c => Op.recordTransaction c.1 c.2

/-- Every call of a history, run in order from `db`, returns without error. -/
def allSucceed : List (Env × models.TransactionInput) → DB → Prop
  | [], _ => True
  | c :: cs, db =>
    ((service.NewService (NewRepository c.1)).Transaction.Create c.2 db).1.2 = none ∧
      allSucceed cs ((service.NewService (NewRepository c.1)).Transaction.Create c.2 db).2

/-- Sum of the amounts of the calls of one operation type. -/
def amountOf (op : models.OperationType) (calls : List (Env × models.TransactionInput)) : Int :=
  ((calls.filter fun c => decide (c.2.OperationType = op)).map fun c => c.2.Amount).sum

/-- The record that a call leaves in the log. -/
def recordOf (c : Env × models.TransactionInput) : models.Transaction :=
  ⟨c.1.newId, c.2.WalletId, c.2.OperationType, c.2.Amount, c.1.now1⟩

/-- The history of the example scenario: deposit 100, then withdraw 30, on
wallet 1. -/
def depositThenWithdraw : List (Env × models.TransactionInput) :=
  [(Env.ok 9 10 11, ⟨1, models.Deposit, 100⟩), (Env.ok 12 13 14, ⟨1, models.Withdraw, 30⟩)]

end ledger

/-! # Theorems -/

/-! ## Lemmas on `TransactionPostgres.Create` -/

namespace repository

open sqlx

/-- Locking a row changes no table. -/
theorem apply_lockWallet (walletId : uuid.UUID) (db : DB) :
    (Stmt.lockWallet walletId).apply db = db := rfl

/-- An insert into the log leaves the wallets alone. -/
theorem apply_insertTransaction_wallets (id walletId : uuid.UUID) (op : models.OperationType)
    (amount : Int) (createdAt : Time) (db : DB) :
    ((Stmt.insertTransaction id walletId op amount createdAt).apply db).wallets = db.wallets :=
  rfl

/-- An insert into the log appends the record. -/
theorem apply_insertTransaction_transactions (id walletId : uuid.UUID)
    (op : models.OperationType) (amount : Int) (createdAt : Time) (db : DB) :
    ((Stmt.insertTransaction id walletId op amount createdAt).apply db).transactions =
      db.transactions ++ [⟨id, walletId, op, amount, createdAt⟩] :=
  rfl

/-- The update statement leaves the log alone. -/
theorem updateQuery_transactions (t : models.TransactionInput) (now : Time) (db : DB) :
    ((updateQuery t now).apply db).transactions = db.transactions := by
  unfold updateQuery
  split_ifs <;> rfl

/-- The wallets after the update statement depend on the wallets before it only. -/
theorem updateQuery_wallets_congr (t : models.TransactionInput) (now : Time) (db db' : DB)
    (h : db.wallets = db'.wallets) :
    ((updateQuery t now).apply db).wallets = ((updateQuery t now).apply db').wallets := by
  unfold updateQuery
  split_ifs <;> simp [Stmt.apply, h]

/-- The wallets after `Create`: the chosen update applied when all five calls
succeed, the table as it was otherwise. -/
theorem Create_wallets (env : Env) (t : models.TransactionInput) (db : DB) :
    (TransactionPostgres.Create env t db).2.wallets =
      if env.beginErr = none ∧ env.insertErr = none ∧ env.lockErr = none ∧
          env.updateErr = none ∧ env.commitErr = none
      then ((updateQuery t env.now2).apply db).wallets else db.wallets := by
  rcases env with ⟨b, i, l, u, d, c, s, id, n1, n2⟩
  cases b <;> cases i <;> cases l <;> cases u <;> cases c <;>
    simp [TransactionPostgres.Create, DB.Begin, DB.QueryRow, Tx.Exec, Tx.Commit, Tx.Rollback,
      DB.note, applyAll, apply_lockWallet, apply_insertTransaction_wallets]
  exact updateQuery_wallets_congr t n2 _ _ rfl

/-- The log after `Create`: one record more as soon as `Begin` and the insert
succeed, whatever happens afterwards. -/
theorem Create_transactions (env : Env) (t : models.TransactionInput) (db : DB) :
    (TransactionPostgres.Create env t db).2.transactions =
      if env.beginErr = none ∧ env.insertErr = none
      then db.transactions ++ [⟨env.newId, t.WalletId, t.OperationType, t.Amount, env.now1⟩]
      else db.transactions := by
  rcases env with ⟨b, i, l, u, d, c, s, id, n1, n2⟩
  cases b <;> cases i <;> cases l <;> cases u <;> cases c <;>
    simp [TransactionPostgres.Create, DB.Begin, DB.QueryRow, Tx.Exec, Tx.Commit, Tx.Rollback,
      DB.note, applyAll, apply_lockWallet, apply_insertTransaction_transactions,
      updateQuery_transactions]

/-- The pair returned by `Create` when all five calls succeed. -/
theorem Create_result_ok (env : Env) (t : models.TransactionInput) (db : DB)
    (hb : env.beginErr = none) (hi : env.insertErr = none) (hl : env.lockErr = none)
    (hu : env.updateErr = none) (hc : env.commitErr = none) :
    (TransactionPostgres.Create env t db).1 = (env.newId, none) := by
  rcases env with ⟨b, i, l, u, d, c, s, id, n1, n2⟩
  simp only at hb hi hl hu hc
  subst hb hi hl hu hc
  simp [TransactionPostgres.Create, DB.Begin, DB.QueryRow, Tx.Exec, Tx.Commit, Stmt.returning]

/-- The pair returned by `Create` does not depend on the contents of the store. -/
theorem Create_result_indep (env : Env) (t : models.TransactionInput) (db db' : DB) :
    (TransactionPostgres.Create env t db).1 = (TransactionPostgres.Create env t db').1 := by
  rcases env with ⟨b, i, l, u, d, c, s, id, n1, n2⟩
  cases b <;> cases i <;> cases l <;> cases u <;> cases c <;>
    simp [TransactionPostgres.Create, DB.Begin, DB.QueryRow, Tx.Exec, Tx.Commit, Tx.Rollback,
      Stmt.returning]

/-- The update statement is one of the two balance updates or the empty
statement. -/
theorem updateQuery_cases (t : models.TransactionInput) (now : Time) :
    (t.OperationType = models.Deposit ∧
        updateQuery t now = .addAmount t.Amount now t.WalletId) ∨
      (t.OperationType = models.Withdraw ∧
        updateQuery t now = .subAmount t.Amount now t.WalletId) ∨
      (t.OperationType ≠ models.Deposit ∧ t.OperationType ≠ models.Withdraw ∧
        updateQuery t now = .empty) := by
  unfold updateQuery
  by_cases h1 : t.OperationType = models.Deposit
  · simp [h1]
  · by_cases h2 : t.OperationType = models.Withdraw
    · simp [h2, models.Withdraw, models.Deposit]
    · simp [h1, h2]

/-- Rows of wallets other than the target are not touched by the update. -/
theorem updateQuery_frame (t : models.TransactionInput) (now : Time) (db : DB)
    (other : uuid.UUID) (h : other ≠ t.WalletId) :
    (Stmt.selectWallet other).walletRows ((updateQuery t now).apply db) =
      (Stmt.selectWallet other).walletRows db := by
  rcases updateQuery_cases t now with ⟨_, hq⟩ | ⟨_, hq⟩ | ⟨_, _, hq⟩ <;>
    simp only [hq, Stmt.apply, Stmt.walletRows]
  all_goals
    induction db.wallets with
    | nil => simp
    | cons w ws ih =>
      by_cases hw : w.WalletId = t.WalletId
      · simp [List.filter_cons, hw, Ne.symm h, ih]
      · simp [List.filter_cons, hw, ih]

end repository

namespace ledger

open sqlx repository

/-- A lookup by identifier yields a row with that identifier. -/
theorem findWallet_id (db : DB) (walletId : uuid.UUID) (w : models.Wallet)
    (h : findWallet db walletId = some w) : w.WalletId = walletId := by
  have hm : w ∈ db.wallets.filter fun x => decide (x.WalletId = walletId) :=
    List.mem_of_mem_head? (by simpa [findWallet, Stmt.walletRows] using h)
  simpa using (List.mem_filter.mp hm).2

/-- A lookup after a row-wise change that keeps identifiers yields the changed
row. -/
theorem head_filter_map (f : models.Wallet → models.Wallet)
    (hf : ∀ x, (f x).WalletId = x.WalletId) (walletId : uuid.UUID) (l : List models.Wallet) :
    ((l.map f).filter fun x => decide (x.WalletId = walletId)).head? =
      ((l.filter fun x => decide (x.WalletId = walletId)).head?).map f := by
  induction l with
  | nil => rfl
  | cons x xs ih =>
    by_cases hx : x.WalletId = walletId
    · simp [List.filter_cons, hf, hx]
    · simpa [List.filter_cons, hf, hx] using ih

/-- A lookup of the target wallet after a successful deposit. -/
theorem findWallet_addAmount (db : DB) (amount : Int) (now : Time) (walletId : uuid.UUID)
    (w : models.Wallet) (h : findWallet db walletId = some w) :
    findWallet ((Stmt.addAmount amount now walletId).apply db) walletId =
      some { w with Amount := w.Amount + amount, UpdatedAt := now } := by
  have hid := findWallet_id db walletId w h
  simp only [findWallet, Stmt.walletRows, Stmt.apply] at h ⊢
  rw [head_filter_map _ (fun x => by split_ifs <;> rfl), h]
  simp [hid]

/-- A lookup of the target wallet after a successful withdrawal. -/
theorem findWallet_subAmount (db : DB) (amount : Int) (now : Time) (walletId : uuid.UUID)
    (w : models.Wallet) (h : findWallet db walletId = some w) :
    findWallet ((Stmt.subAmount amount now walletId).apply db) walletId =
      some { w with Amount := w.Amount - amount, UpdatedAt := now } := by
  have hid := findWallet_id db walletId w h
  simp only [findWallet, Stmt.walletRows, Stmt.apply] at h ⊢
  rw [head_filter_map _ (fun x => by split_ifs <;> rfl), h]
  simp [hid]

/-- A lookup reads the table of wallets only. -/
theorem findWallet_congr (db db' : DB) (walletId : uuid.UUID) (h : db.wallets = db'.wallets) :
    findWallet db walletId = findWallet db' walletId := by
  simp [findWallet, Stmt.walletRows, h]

/-- The target wallet after a `Create` in which every call succeeds. -/
theorem findWallet_Create_ok (env : Env) (t : models.TransactionInput) (db : DB)
    (hb : env.beginErr = none) (hi : env.insertErr = none) (hl : env.lockErr = none)
    (hu : env.updateErr = none) (hc : env.commitErr = none) (walletId : uuid.UUID) :
    findWallet (TransactionPostgres.Create env t db).2 walletId =
      findWallet ((updateQuery t env.now2).apply db) walletId := by
  apply findWallet_congr
  rw [Create_wallets]
  simp [hb, hi, hl, hu, hc]

/-- The target wallet after a `Create` in which every call succeeds: the signed
amount has been applied. -/
theorem create_signed_delta (env : Env) (t : models.TransactionInput) (db : DB)
    (w : models.Wallet) (hw : findWallet db t.WalletId = some w)
    (hb : env.beginErr = none) (hi : env.insertErr = none) (hl : env.lockErr = none)
    (hu : env.updateErr = none) (hc : env.commitErr = none) :
    (t.OperationType = models.Deposit →
      findWallet (TransactionPostgres.Create env t db).2 t.WalletId =
        some { w with Amount := w.Amount + t.Amount, UpdatedAt := env.now2 }) ∧
    (t.OperationType = models.Withdraw →
      findWallet (TransactionPostgres.Create env t db).2 t.WalletId =
        some { w with Amount := w.Amount - t.Amount, UpdatedAt := env.now2 }) := by
  refine ⟨fun hop => ?_, fun hop => ?_⟩
  · rw [findWallet_Create_ok env t db hb hi hl hu hc]
    have hq : updateQuery t env.now2 = .addAmount t.Amount env.now2 t.WalletId := by
      simp [updateQuery, hop]
    rw [hq]
    exact findWallet_addAmount db _ _ _ w hw
  · rw [findWallet_Create_ok env t db hb hi hl hu hc]
    have hq : updateQuery t env.now2 = .subAmount t.Amount env.now2 t.WalletId := by
      simp [updateQuery, hop, models.Withdraw, models.Deposit]
    rw [hq]
    exact findWallet_subAmount db _ _ _ w hw

/-- The rows of every wallet other than the target are the same after `Create`. -/
theorem Create_frame (env : Env) (t : models.TransactionInput) (db : DB)
    (other : uuid.UUID) (h : other ≠ t.WalletId) :
    (Stmt.selectWallet other).walletRows (TransactionPostgres.Create env t db).2 =
      (Stmt.selectWallet other).walletRows db := by
  have hc := Create_wallets env t db
  have hf := updateQuery_frame t env.now2 db other h
  simp only [Stmt.walletRows] at hf ⊢
  rw [hc]
  split_ifs
  · exact hf
  · rfl

/-- Claim C1. Evaluation of `Create` when the balance update fails after the
record insert: `Create` returns `uuid.Nil` with the error and the wallets are
as before, but the log, empty before the call, now holds the record: the insert
went through the database handle, not through the transactional handle, so the
rollback does not undo it. -/
theorem create_failed_update_keeps_record :
    (TransactionPostgres.Create updateFails deposit100 oneWallet).1 =
        (uuid.Nil, some (.other "some error")) ∧
    (TransactionPostgres.Create updateFails deposit100 oneWallet).2.wallets =
        oneWallet.wallets ∧
    oneWallet.transactions = [] ∧
    (TransactionPostgres.Create updateFails deposit100 oneWallet).2.transactions =
        [⟨9, 1, "DEPOSIT", 100, 10⟩] ∧
    (TransactionPostgres.Create updateFails deposit100 oneWallet).2.journal =
        [.Begin, .Query (.insertTransaction 9 1 "DEPOSIT" 100 10), .Exec (.lockWallet 1),
          .Exec (.addAmount 100 11 1), .Rollback] := by
  decide

/-- Claim C2. Evaluation of a reachable state that breaks the ledger invariant:
after creating wallet 1 and a deposit of 100 on it whose balance update fails,
the wallet has balance 0 while the log accounts for 100. -/
theorem ledger_invariant_broken_by_failed_update :
    (runAll [.createWallet (Env.ok 1 5 5) 7, .recordTransaction updateFails deposit100]
        DB.empty).wallets = [⟨1, 7, 0, 5, 5⟩] ∧
    netEffect (runAll [.createWallet (Env.ok 1 5 5) 7, .recordTransaction updateFails deposit100]
        DB.empty).transactions 1 = 100 ∧
    ¬ ledgerInvariant
        (runAll [.createWallet (Env.ok 1 5 5) 7, .recordTransaction updateFails deposit100]
          DB.empty) := by
  decide

/-- Claim C3. For an existing wallet `w` and an amount `a > 0`, a `Create` on `w`
in which every store call succeeds returns without error and leaves the balance
of `w` at `w.Amount + a` for a Deposit and at `w.Amount - a` for a Withdraw (the
other fields of the row are kept, except `UpdatedAt`). -/
theorem create_applies_signed_delta (env : Env) (t : models.TransactionInput) (db : DB)
    (w : models.Wallet) (hw : findWallet db t.WalletId = some w) (_ha : 0 < t.Amount)
    (hb : env.beginErr = none) (hi : env.insertErr = none) (hl : env.lockErr = none)
    (hu : env.updateErr = none) (hc : env.commitErr = none) :
    (TransactionPostgres.Create env t db).1.2 = none ∧
    (t.OperationType = models.Deposit →
      findWallet (TransactionPostgres.Create env t db).2 t.WalletId =
        some { w with Amount := w.Amount + t.Amount, UpdatedAt := env.now2 }) ∧
    (t.OperationType = models.Withdraw →
      findWallet (TransactionPostgres.Create env t db).2 t.WalletId =
        some { w with Amount := w.Amount - t.Amount, UpdatedAt := env.now2 }) :=
  ⟨by rw [Create_result_ok env t db hb hi hl hu hc],
    create_signed_delta env t db w hw hb hi hl hu hc⟩

/-- Witness of `create_applies_signed_delta`: a deposit of 100 on a wallet with
balance 0. -/
theorem create_applies_signed_delta_witness :
    findWallet oneWallet deposit100.WalletId = some ⟨1, 7, 0, 5, 5⟩ ∧
    (TransactionPostgres.Create (Env.ok 9 10 11) deposit100 oneWallet).1.2 = none ∧
    (deposit100.OperationType = models.Deposit →
      findWallet (TransactionPostgres.Create (Env.ok 9 10 11) deposit100 oneWallet).2
        deposit100.WalletId = some ⟨1, 7, 0 + 100, 5, 11⟩) ∧
    (deposit100.OperationType = models.Withdraw →
      findWallet (TransactionPostgres.Create (Env.ok 9 10 11) deposit100 oneWallet).2
        deposit100.WalletId = some ⟨1, 7, 0 - 100, 5, 11⟩) :=
  ⟨by decide,
    create_applies_signed_delta (Env.ok 9 10 11) deposit100 oneWallet ⟨1, 7, 0, 5, 5⟩
      (by decide) (by decide) rfl rfl rfl rfl rfl⟩

/-- Claim C4. When `Create` returns without error, the log is the log before
the call followed by exactly one record; that record carries the wallet
identifier, operation type and amount of the input, and the identifier that
`Create` returns is its `TransactionId`. -/
theorem create_appends_one_record (env : Env) (t : models.TransactionInput) (db : DB)
    (hok : (TransactionPostgres.Create env t db).1.2 = none) :
    ∃ r : models.Transaction,
      (TransactionPostgres.Create env t db).2.transactions = db.transactions ++ [r] ∧
      r.WalletId = t.WalletId ∧ r.OperationType = t.OperationType ∧ r.Amount = t.Amount ∧
      (TransactionPostgres.Create env t db).1.1 = r.TransactionId := by
  refine ⟨⟨env.newId, t.WalletId, t.OperationType, t.Amount, env.now1⟩, ?_, rfl, rfl, rfl, ?_⟩
  · rw [Create_transactions]
    rcases env with ⟨b, i, l, u, d, c, s, id, n1, n2⟩
    cases b <;> cases i <;> cases l <;> cases u <;> cases c <;>
      simp_all [TransactionPostgres.Create, DB.Begin, DB.QueryRow, Tx.Exec, Tx.Commit,
        Tx.Rollback]
  · rcases env with ⟨b, i, l, u, d, c, s, id, n1, n2⟩
    cases b <;> cases i <;> cases l <;> cases u <;> cases c <;>
      simp_all [TransactionPostgres.Create, DB.Begin, DB.QueryRow, Tx.Exec, Tx.Commit,
        Tx.Rollback, Stmt.returning]

/-- Witness of `create_appends_one_record`: a successful deposit of 100. -/
theorem create_appends_one_record_witness :
    (TransactionPostgres.Create (Env.ok 9 10 11) deposit100 oneWallet).1.2 = none ∧
    ∃ r : models.Transaction,
      (TransactionPostgres.Create (Env.ok 9 10 11) deposit100 oneWallet).2.transactions =
        oneWallet.transactions ++ [r] ∧
      r.WalletId = deposit100.WalletId ∧ r.OperationType = deposit100.OperationType ∧
      r.Amount = deposit100.Amount ∧
      (TransactionPostgres.Create (Env.ok 9 10 11) deposit100 oneWallet).1.1 = r.TransactionId :=
  ⟨by decide, create_appends_one_record (Env.ok 9 10 11) deposit100 oneWallet (by decide)⟩

/-- Claim C5. When the wallet of the input has no row, `TransactionService.Create`
returns `uuid.Nil` with the error of the wallet lookup, which is `sql.ErrNoRows`
unless the lookup itself failed; whatever the transaction repository is, its
`Create` has no part in the outcome: the store is the one the lookup left, with
both tables unchanged and a journal that grew by the lookup alone, so no scope
was opened (no `Begin` was issued). -/
theorem service_create_unknown_wallet (env : Env) (repo : repository.Transaction DB)
    (t : models.TransactionInput) (db : DB)
    (hno : ∀ w ∈ db.wallets, w.WalletId ≠ t.WalletId) :
    (service.TransactionService.Create ⟨repo, NewWalletPostgres env⟩ t db).1.1 = uuid.Nil ∧
    (service.TransactionService.Create ⟨repo, NewWalletPostgres env⟩ t db).1.2 =
      (WalletPostgres.GetById env t.WalletId db).1.2 ∧
    (env.selectErr = none →
      (service.TransactionService.Create ⟨repo, NewWalletPostgres env⟩ t db).1.2 =
        some Error.ErrNoRows) ∧
    (service.TransactionService.Create ⟨repo, NewWalletPostgres env⟩ t db).2.wallets =
      db.wallets ∧
    (service.TransactionService.Create ⟨repo, NewWalletPostgres env⟩ t db).2.transactions =
      db.transactions ∧
    (service.TransactionService.Create ⟨repo, NewWalletPostgres env⟩ t db).2.journal =
      db.journal ++ [.Query (.selectWallet t.WalletId)] := by
  have hrows : (Stmt.selectWallet t.WalletId).walletRows db = [] := by
    simp only [Stmt.walletRows, List.filter_eq_nil_iff]
    intro w hw
    simpa using hno w hw
  cases hs : env.selectErr <;>
    simp [service.TransactionService.Create, NewWalletPostgres, WalletPostgres.GetById,
      DB.GetWallet, hs, hrows, DB.note]

/-- Witness of `service_create_unknown_wallet`: a deposit on wallet 2 in a store
that holds wallet 1 only, with the Postgres transaction repository. -/
theorem service_create_unknown_wallet_witness :
    (service.TransactionService.Create
        ⟨NewTransactionPostgres (Env.ok 9 10 11), NewWalletPostgres (Env.ok 9 10 11)⟩
        ⟨2, models.Deposit, 100⟩ oneWallet).1 = (uuid.Nil, some Error.ErrNoRows) ∧
    (service.TransactionService.Create
        ⟨NewTransactionPostgres (Env.ok 9 10 11), NewWalletPostgres (Env.ok 9 10 11)⟩
        ⟨2, models.Deposit, 100⟩ oneWallet).2.journal = [.Query (.selectWallet 2)] := by
  have h := service_create_unknown_wallet (Env.ok 9 10 11)
    (NewTransactionPostgres (Env.ok 9 10 11)) ⟨2, models.Deposit, 100⟩ oneWallet (by decide)
  exact ⟨Prod.ext h.1 (h.2.2.1 rfl), h.2.2.2.2.2⟩

/-- Claim C8. A Withdraw of `a > 0` from an existing wallet with balance `b < a`,
with every store call succeeding, is accepted: `Create` returns the new
identifier without error and the balance becomes `b - a`, a negative number.
Moreover the pair `Create` returns is the same for every store contents, so no
failure is ever due to the balance. -/
theorem withdraw_beyond_balance_accepted (env : Env) (t : models.TransactionInput) (db : DB)
    (w : models.Wallet) (hw : findWallet db t.WalletId = some w)
    (hop : t.OperationType = models.Withdraw) (_ha : 0 < t.Amount) (hgt : w.Amount < t.Amount)
    (hb : env.beginErr = none) (hi : env.insertErr = none) (hl : env.lockErr = none)
    (hu : env.updateErr = none) (hc : env.commitErr = none) :
    (TransactionPostgres.Create env t db).1 = (env.newId, none) ∧
    findWallet (TransactionPostgres.Create env t db).2 t.WalletId =
      some { w with Amount := w.Amount - t.Amount, UpdatedAt := env.now2 } ∧
    w.Amount - t.Amount < 0 ∧
    ∀ (env' : Env) (t' : models.TransactionInput) (db₁ db₂ : DB),
      (TransactionPostgres.Create env' t' db₁).1 = (TransactionPostgres.Create env' t' db₂).1 := by
  refine ⟨Create_result_ok env t db hb hi hl hu hc, ?_, by omega,
    fun env' t' db₁ db₂ => Create_result_indep env' t' db₁ db₂⟩
  exact (create_signed_delta env t db w hw hb hi hl hu hc).2 hop

/-- Witness of `withdraw_beyond_balance_accepted`: a withdrawal of 30 from a
wallet with balance 0. -/
theorem withdraw_beyond_balance_accepted_witness :
    (TransactionPostgres.Create (Env.ok 9 10 11) ⟨1, models.Withdraw, 30⟩ oneWallet).1 =
      (9, none) ∧
    findWallet (TransactionPostgres.Create (Env.ok 9 10 11) ⟨1, models.Withdraw, 30⟩ oneWallet).2
      1 = some ⟨1, 7, -30, 5, 11⟩ :=
  have h := withdraw_beyond_balance_accepted (Env.ok 9 10 11) ⟨1, models.Withdraw, 30⟩ oneWallet
    ⟨1, 7, 0, 5, 5⟩ (by decide) rfl (by decide) (by decide) rfl rfl rfl rfl rfl
  ⟨h.1, h.2.1⟩

/-- Claim C10. A `recordTransaction` on wallet `A`, successful or failed, leaves
the rows of every other wallet `B` as they were, field by field; this holds for
the repository method and for the service over the Postgres repositories. -/
theorem create_leaves_other_wallets (env : Env) (t : models.TransactionInput) (db : DB)
    (other : uuid.UUID) (h : other ≠ t.WalletId) :
    (Stmt.selectWallet other).walletRows (TransactionPostgres.Create env t db).2 =
      (Stmt.selectWallet other).walletRows db ∧
    (Stmt.selectWallet other).walletRows
        ((service.NewService (NewRepository env)).Transaction.Create t db).2 =
      (Stmt.selectWallet other).walletRows db :=
  ⟨Create_frame env t db other h, by
    simp only [service.NewService, service.NewTransactionService, NewRepository,
      service.TransactionService.Create, NewWalletPostgres, NewTransactionPostgres,
      WalletPostgres.GetById, DB.GetWallet]
    cases env.selectErr with
    | some e => rfl
    | none =>
      cases (Stmt.selectWallet t.WalletId).walletRows db with
      | nil => rfl
      | cons w ws => exact Create_frame env t _ other h⟩

/-- Witness of `create_leaves_other_wallets`: wallet 1 is untouched by a deposit
on wallet 2. -/
theorem create_leaves_other_wallets_witness :
    (Stmt.selectWallet 1).walletRows
        (TransactionPostgres.Create (Env.ok 9 10 11) ⟨2, models.Deposit, 100⟩ twoWallets).2 =
      [⟨1, 7, 0, 5, 5⟩] :=
  (create_leaves_other_wallets (Env.ok 9 10 11) ⟨2, models.Deposit, 100⟩ twoWallets 1
    (by decide)).1.trans (by decide)

/-- Claim C6, counterexample. A request with amount -5 and otherwise valid fields
is not rejected: the handler answers 200 with the new identifier, the service
has run, a record with amount -5 is in the log and the balance went from 0
to -5. -/
theorem negative_amount_not_rejected :
    negativeAmountBody.amount = some (.integer (-5)) ∧
    (handler.Handler.createTransaction (postgresHandler (Env.ok 9 10 11)) parseOne
        (some negativeAmountBody) oneWallet).1 = ⟨200, .uuid 9⟩ ∧
    (handler.Handler.createTransaction (postgresHandler (Env.ok 9 10 11)) parseOne
        (some negativeAmountBody) oneWallet).1 ≠
      handler.newErrorResponse 400 "invalid input body" ∧
    (handler.Handler.createTransaction (postgresHandler (Env.ok 9 10 11)) parseOne
        (some negativeAmountBody) oneWallet).2.wallets = [⟨1, 7, -5, 5, 11⟩] ∧
    (handler.Handler.createTransaction (postgresHandler (Env.ok 9 10 11)) parseOne
        (some negativeAmountBody) oneWallet).2.transactions = [⟨9, 1, "DEPOSIT", -5, 10⟩] := by
  decide

/-- Claim C6, amended. A create-transaction request whose amount is zero is
answered with 400 and the message "invalid input body"; whatever the services
are, they have no part in the outcome, and the store is the one before the
request. -/
theorem zero_amount_rejected {σ : Type} (h : handler.Handler σ)
    (parse : String → Option uuid.UUID) (b : handler.TransactionBody) (st : σ)
    (hz : b.amount = some (.integer 0)) :
    handler.Handler.createTransaction h parse (some b) st =
      (handler.newErrorResponse http.StatusBadRequest "invalid input body", st) := by
  have hbind : handler.BindJSON parse (some b) = none := by
    simp only [handler.BindJSON, handler.decodeTransactionInput, hz, handler.decodeInt64]
    cases handler.decodeUUID parse b.walletId <;> cases handler.decodeString b.operationType <;>
      simp [handler.validateRequired]
  simp [handler.Handler.createTransaction, hbind]

/-- Witness of `zero_amount_rejected`: a deposit of 0 on wallet 1. -/
theorem zero_amount_rejected_witness :
    zeroAmountBody.amount = some (.integer 0) ∧
    handler.Handler.createTransaction (postgresHandler (Env.ok 9 10 11)) parseOne
        (some zeroAmountBody) oneWallet =
      (handler.newErrorResponse http.StatusBadRequest "invalid input body", oneWallet) :=
  ⟨rfl, zero_amount_rejected (postgresHandler (Env.ok 9 10 11)) parseOne zeroAmountBody
    oneWallet rfl⟩

/-- Claim C7. Evaluation of the handler on a request whose operation type is
"INCORRECT" and whose other fields are valid: binding succeeds, the handler
answers 200 with the new identifier, and the log holds a record of type
"INCORRECT" while the balance stays at 0. -/
theorem incorrect_operation_type_accepted :
    handler.BindJSON parseOne (some incorrectTypeBody) = some ⟨1, "INCORRECT", 100⟩ ∧
    (handler.Handler.createTransaction (postgresHandler (Env.ok 9 10 11)) parseOne
        (some incorrectTypeBody) oneWallet).1 = ⟨200, .uuid 9⟩ ∧
    (handler.Handler.createTransaction (postgresHandler (Env.ok 9 10 11)) parseOne
        (some incorrectTypeBody) oneWallet).2.transactions = [⟨9, 1, "INCORRECT", 100, 10⟩] ∧
    (handler.Handler.createTransaction (postgresHandler (Env.ok 9 10 11)) parseOne
        (some incorrectTypeBody) oneWallet).2.wallets = [⟨1, 7, 0, 5, 5⟩] := by
  decide

/-! ## Wallet lifecycle -/

/-- A lookup by owner and identifier that selects no row reports `sql.ErrNoRows`
with the zero wallet, or the failure of the query. -/
theorem GetByIdFromUser_no_row (env : Env) (u : Int) (w : uuid.UUID) (db : DB)
    (h : ∀ x ∈ db.wallets, x.WalletId = w → x.UserId ≠ u) :
    (WalletPostgres.GetByIdFromUser env u w db).1 =
      (models.Wallet.zero, some (env.selectErr.getD .ErrNoRows)) := by
  have hrows : (Stmt.selectWalletOfUser u w).walletRows db = [] := by
    simp only [Stmt.walletRows, List.filter_eq_nil_iff]
    intro x hx
    have := h x hx
    simp only [Bool.and_eq_true, decide_eq_true_eq, not_and]
    exact fun hu hw => this hw hu
  cases hs : env.selectErr <;>
    simp [WalletPostgres.GetByIdFromUser, DB.GetWallet, hs, hrows]

/-- The rows that a lookup by owner and identifier selects are rows of that
owner. -/
theorem walletRows_ofUser_congr (u : Int) (w : uuid.UUID) (db db' : DB)
    (h : (db.wallets.filter fun x => decide (x.UserId = u)) =
      db'.wallets.filter fun x => decide (x.UserId = u)) :
    (Stmt.selectWalletOfUser u w).walletRows db = (Stmt.selectWalletOfUser u w).walletRows db' := by
  have key : ∀ l : List models.Wallet,
      (l.filter fun x => decide (x.UserId = u) && decide (x.WalletId = w)) =
        (l.filter fun x => decide (x.UserId = u)).filter fun x => decide (x.WalletId = w) := by
    intro l
    rw [List.filter_filter]
    congr 1
    funext x
    exact Bool.and_comm _ _
  simp only [Stmt.walletRows, key, h]

/-- Claim C11. When every row of wallet `w` belongs to a user other than `u`,
`GetByIdFromUser(u, w)` returns exactly what it returns for an identifier `w'`
that is not in the store: the zero wallet with `sql.ErrNoRows` (or with the
failure of the query).  Moreover the result of `GetByIdFromUser(u, .)` is the
same in any two stores that hold the same wallets of `u`. -/
theorem get_by_id_from_user_hides_foreign (env : Env) (u : Int) (w w' : uuid.UUID) (db : DB)
    (_hex : ∃ x ∈ db.wallets, x.WalletId = w)
    (hforeign : ∀ x ∈ db.wallets, x.WalletId = w → x.UserId ≠ u)
    (habsent : ∀ x ∈ db.wallets, x.WalletId ≠ w') :
    (WalletPostgres.GetByIdFromUser env u w db).1 =
      (WalletPostgres.GetByIdFromUser env u w' db).1 ∧
    (env.selectErr = none →
      (WalletPostgres.GetByIdFromUser env u w db).1 =
        (models.Wallet.zero, some Error.ErrNoRows)) ∧
    ∀ (db' : DB) (walletId : uuid.UUID),
      (db'.wallets.filter fun x => decide (x.UserId = u)) =
          (db.wallets.filter fun x => decide (x.UserId = u)) →
        (WalletPostgres.GetByIdFromUser env u walletId db').1 =
          (WalletPostgres.GetByIdFromUser env u walletId db).1 := by
  refine ⟨?_, fun hs => ?_, fun db' walletId h => ?_⟩
  · rw [GetByIdFromUser_no_row env u w db hforeign,
      GetByIdFromUser_no_row env u w' db (fun x hx hw => absurd hw (habsent x hx))]
  · rw [GetByIdFromUser_no_row env u w db hforeign, hs]
    rfl
  · simp only [WalletPostgres.GetByIdFromUser, DB.GetWallet,
      walletRows_ofUser_congr u walletId db' db h]
    cases env.selectErr with
    | some e => rfl
    | none => cases (Stmt.selectWalletOfUser u walletId).walletRows db <;> rfl

/-- Witness of `get_by_id_from_user_hides_foreign`: user 7 asks for wallet 2 of
user 8 and for the absent wallet 3. -/
theorem get_by_id_from_user_hides_foreign_witness :
    (WalletPostgres.GetByIdFromUser (Env.ok 9 10 11) 7 2 twoWallets).1 =
      (WalletPostgres.GetByIdFromUser (Env.ok 9 10 11) 7 3 twoWallets).1 ∧
    (WalletPostgres.GetByIdFromUser (Env.ok 9 10 11) 7 2 twoWallets).1 =
      (models.Wallet.zero, some Error.ErrNoRows) :=
  have h := get_by_id_from_user_hides_foreign (Env.ok 9 10 11) 7 2 3 twoWallets
    (by decide) (by decide) (by decide)
  ⟨h.1, h.2.1 rfl⟩

/-- Claim C12. Evaluation of `Delete` by a user who does not own the wallet, and
on an identifier that is not in the store, with every call succeeding: `Delete`
returns `nil`, not an error, after a lock and a delete that match no row and a
commit; the wallets are as before. -/
theorem delete_by_non_owner_returns_nil :
    WalletPostgres.Delete (Env.ok 9 10 11) 8 1 oneWallet =
      (none, { oneWallet with journal :=
        [.Begin, .Exec (.lockWalletOfUser 8 1), .Exec (.deleteWallet 8 1), .Commit] }) ∧
    ((service.NewService (NewRepository (Env.ok 9 10 11))).Wallet.Delete 8 1 oneWallet).1 =
      none ∧
    (WalletPostgres.Delete (Env.ok 9 10 11) 7 3 oneWallet).1 = none ∧
    (WalletPostgres.Delete (Env.ok 9 10 11) 7 3 oneWallet).2.wallets = oneWallet.wallets ∧
    (WalletPostgres.GetByIdFromUser (Env.ok 9 10 11) 8 1 oneWallet).1 =
      (models.Wallet.zero, some Error.ErrNoRows) := by
  decide

/-- The outcome of `Delete` when every call succeeds: `nil`, and the rows of the
wallet of that owner are gone. -/
theorem Delete_ok (env : Env) (u : Int) (w : uuid.UUID) (db : DB)
    (hb : env.beginErr = none) (hl : env.lockErr = none) (hd : env.deleteErr = none)
    (hc : env.commitErr = none) :
    WalletPostgres.Delete env u w db =
      (none, { db with
        wallets := db.wallets.filter fun x => !(decide (x.UserId = u) && decide (x.WalletId = w))
        journal := db.journal ++
          [.Begin, .Exec (.lockWalletOfUser u w), .Exec (.deleteWallet u w), .Commit] }) := by
  simp [WalletPostgres.Delete, DB.Begin, Tx.Exec, Tx.Commit, hb, hl, hd, hc, DB.note, applyAll,
    Stmt.apply]

/-- The log is not touched by `Delete`. -/
theorem Delete_transactions (env : Env) (u : Int) (w : uuid.UUID) (db : DB) :
    (WalletPostgres.Delete env u w db).2.transactions = db.transactions := by
  rcases env with ⟨b, i, l, up, d, c, s, id, n1, n2⟩
  cases b <;> cases l <;> cases d <;> cases c <;>
    simp [WalletPostgres.Delete, DB.Begin, Tx.Exec, Tx.Commit, Tx.Rollback, DB.note, applyAll,
      Stmt.apply]

/-- A lookup by identifier that selects no row reports `sql.ErrNoRows`. -/
theorem GetById_no_row (env : Env) (w : uuid.UUID) (db : DB) (hs : env.selectErr = none)
    (h : ∀ x ∈ db.wallets, x.WalletId ≠ w) :
    (WalletPostgres.GetById env w db).1 = (models.Wallet.zero, some Error.ErrNoRows) := by
  have hrows : (Stmt.selectWallet w).walletRows db = [] := by
    simp only [Stmt.walletRows, List.filter_eq_nil_iff]
    intro x hx
    simpa using h x hx
  simp [WalletPostgres.GetById, DB.GetWallet, hs, hrows]

/-- Claim C13. For a wallet `w` all of whose rows belong to user `u`, a
`Delete(u, w)` in which every call succeeds returns `nil` and removes `w`: a
later `GetById(w)` or `GetByIdFromUser(u, w)` reports `sql.ErrNoRows`, and the
rows of every other wallet are as before. -/
theorem delete_by_owner_removes_wallet (env : Env) (u : Int) (w : uuid.UUID) (db : DB)
    (_hex : ∃ x ∈ db.wallets, x.WalletId = w)
    (hown : ∀ x ∈ db.wallets, x.WalletId = w → x.UserId = u)
    (hb : env.beginErr = none) (hl : env.lockErr = none) (hd : env.deleteErr = none)
    (hc : env.commitErr = none) :
    (WalletPostgres.Delete env u w db).1 = none ∧
    (∀ x ∈ (WalletPostgres.Delete env u w db).2.wallets, x.WalletId ≠ w) ∧
    (∀ env' : Env, env'.selectErr = none →
      (WalletPostgres.GetById env' w (WalletPostgres.Delete env u w db).2).1 =
          (models.Wallet.zero, some Error.ErrNoRows) ∧
      (WalletPostgres.GetByIdFromUser env' u w (WalletPostgres.Delete env u w db).2).1 =
          (models.Wallet.zero, some Error.ErrNoRows)) ∧
    (∀ other : uuid.UUID, other ≠ w →
      (Stmt.selectWallet other).walletRows (WalletPostgres.Delete env u w db).2 =
        (Stmt.selectWallet other).walletRows db) ∧
    (WalletPostgres.Delete env u w db).2.wallets =
      db.wallets.filter fun x => decide (x.WalletId ≠ w) := by
  have hgone : ∀ x ∈ (WalletPostgres.Delete env u w db).2.wallets, x.WalletId ≠ w := by
    rw [Delete_ok env u w db hb hl hd hc]
    intro x hx hw
    have hm := List.mem_filter.mp hx
    have hu := hown x hm.1 hw
    simp [hu, hw] at hm
  have hfilter : (WalletPostgres.Delete env u w db).2.wallets =
      db.wallets.filter fun x => decide (x.WalletId ≠ w) := by
    rw [Delete_ok env u w db hb hl hd hc]
    apply List.filter_congr
    intro x hx
    by_cases hw : x.WalletId = w
    · simp [hw, hown x hx hw]
    · simp [hw]
  refine ⟨by rw [Delete_ok env u w db hb hl hd hc], hgone, fun env' hs => ⟨?_, ?_⟩,
    fun other ho => ?_, hfilter⟩
  · exact GetById_no_row env' w _ hs hgone
  · rw [GetByIdFromUser_no_row env' u w _ (fun x hx hw => absurd hw (hgone x hx)), hs]
    rfl
  · simp only [Stmt.walletRows, hfilter, List.filter_filter]
    apply List.filter_congr
    intro x _
    by_cases hx : x.WalletId = other
    · have : x.WalletId ≠ w := fun e => ho (hx ▸ e)
      simp [hx, ho]
    · simp [hx]

/-- Witness of `delete_by_owner_removes_wallet`: user 7 deletes wallet 1 from a
store that also holds wallet 2 of user 8. -/
theorem delete_by_owner_removes_wallet_witness :
    (WalletPostgres.Delete (Env.ok 9 10 11) 7 1 twoWallets).1 = none ∧
    (WalletPostgres.Delete (Env.ok 9 10 11) 7 1 twoWallets).2.wallets = [⟨2, 8, 0, 6, 6⟩] :=
  have h := delete_by_owner_removes_wallet (Env.ok 9 10 11) 7 1 twoWallets
    (by decide) (by decide) rfl rfl rfl rfl
  ⟨h.1, h.2.2.2.2.trans (by decide)⟩

/-- Every error that `Delete` returns is the error of a failing step, and both
tables are then as before the call. -/
theorem Delete_error_cases (env : Env) (u : Int) (w : uuid.UUID) (db : DB) (e : Error)
    (herr : (WalletPostgres.Delete env u w db).1 = some e) :
    (WalletPostgres.Delete env u w db).2.wallets = db.wallets ∧
    (WalletPostgres.Delete env u w db).2.transactions = db.transactions ∧
    ((env.beginErr = some e ∧
        (WalletPostgres.Delete env u w db).2.journal = db.journal ++ [.Begin]) ∨
      (env.beginErr = none ∧ env.lockErr = some e ∧
        (WalletPostgres.Delete env u w db).2.journal =
          db.journal ++ [.Begin, .Exec (.lockWalletOfUser u w), .Rollback]) ∨
      (env.beginErr = none ∧ env.lockErr = none ∧ env.deleteErr = some e ∧
        (WalletPostgres.Delete env u w db).2.journal =
          db.journal ++ [.Begin, .Exec (.lockWalletOfUser u w), .Exec (.deleteWallet u w),
            .Rollback]) ∨
      (env.beginErr = none ∧ env.lockErr = none ∧ env.deleteErr = none ∧
        env.commitErr = some e ∧
        (WalletPostgres.Delete env u w db).2.journal =
          db.journal ++ [.Begin, .Exec (.lockWalletOfUser u w), .Exec (.deleteWallet u w),
            .Commit])) := by
  rcases env with ⟨b, i, l, up, d, c, s, id, n1, n2⟩
  cases b <;> cases l <;> cases d <;> cases c <;>
    simp_all [WalletPostgres.Delete, DB.Begin, Tx.Exec, Tx.Commit, Tx.Rollback, DB.note,
      applyAll, Stmt.apply]

/-- Claim C14. When a step of `Delete` fails with error `e` (opening the scope,
or, the steps before it having succeeded, the row lock, the delete statement or
the commit), `Delete` returns `e` and both tables are as before the call.  The
calls issued stop at the failing step: nothing follows a failed `Begin`, a
rollback and no commit follows a failed lock or a failed delete statement, and
nothing follows a failed commit. -/
theorem delete_all_or_nothing (env : Env) (u : Int) (w : uuid.UUID) (db : DB) (e : Error)
    (hfail : env.beginErr = some e ∨
      (env.beginErr = none ∧ env.lockErr = some e) ∨
      (env.beginErr = none ∧ env.lockErr = none ∧ env.deleteErr = some e) ∨
      (env.beginErr = none ∧ env.lockErr = none ∧ env.deleteErr = none ∧
        env.commitErr = some e)) :
    (WalletPostgres.Delete env u w db).1 = some e ∧
    (WalletPostgres.Delete env u w db).2.wallets = db.wallets ∧
    (WalletPostgres.Delete env u w db).2.transactions = db.transactions ∧
    (env.beginErr = some e →
      (WalletPostgres.Delete env u w db).2.journal = db.journal ++ [.Begin]) ∧
    (env.beginErr = none → env.lockErr = some e →
      (WalletPostgres.Delete env u w db).2.journal =
        db.journal ++ [.Begin, .Exec (.lockWalletOfUser u w), .Rollback]) ∧
    (env.beginErr = none → env.lockErr = none → env.deleteErr = some e →
      (WalletPostgres.Delete env u w db).2.journal =
        db.journal ++ [.Begin, .Exec (.lockWalletOfUser u w), .Exec (.deleteWallet u w),
          .Rollback]) ∧
    (env.beginErr = none → env.lockErr = none → env.deleteErr = none →
      env.commitErr = some e →
      (WalletPostgres.Delete env u w db).2.journal =
        db.journal ++ [.Begin, .Exec (.lockWalletOfUser u w), .Exec (.deleteWallet u w),
          .Commit]) := by
  rcases env with ⟨b, i, l, up, d, c, s, id, n1, n2⟩
  rcases hfail with h | ⟨hb, h⟩ | ⟨hb, hl, h⟩ | ⟨hb, hl, hd, h⟩
  · simp only at h
    subst h
    simp [WalletPostgres.Delete, DB.Begin, DB.note]
  · simp only at hb h
    subst hb h
    simp [WalletPostgres.Delete, DB.Begin, Tx.Exec, Tx.Rollback, DB.note]
  · simp only at hb hl h
    subst hb hl h
    simp [WalletPostgres.Delete, DB.Begin, Tx.Exec, Tx.Rollback, DB.note]
  · simp only at hb hl hd h
    subst hb hl hd h
    simp [WalletPostgres.Delete, DB.Begin, Tx.Exec, Tx.Commit, DB.note]

/-- Witness of `delete_all_or_nothing`: a failing commit, after a lock and a
delete statement that succeeded, is returned and wallet 1 is kept. -/
theorem delete_all_or_nothing_witness :
    (WalletPostgres.Delete { Env.ok 9 10 11 with commitErr := some (.other "some error") }
        7 1 oneWallet).1 = some (.other "some error") ∧
    (WalletPostgres.Delete { Env.ok 9 10 11 with commitErr := some (.other "some error") }
        7 1 oneWallet).2.wallets = oneWallet.wallets :=
  have h := delete_all_or_nothing
    { Env.ok 9 10 11 with commitErr := some (.other "some error") } 7 1 oneWallet
    (.other "some error") (Or.inr (Or.inr (Or.inr ⟨rfl, rfl, rfl, rfl⟩)))
  ⟨h.1, h.2.1⟩

/-- Claim C15. With `uuid.New()` yielding a non-nil identifier: when the insert
succeeds, `WalletPostgres.Create(u)` returns that identifier without error and
the wallets are the wallets before the call followed by one row, with that
identifier, owner `u` and balance 0; when the insert fails, it returns
`uuid.Nil` with the error and the wallets are as before.  The log is untouched
either way. -/
theorem wallet_create_adds_one_row (env : Env) (u : Int) (db : DB)
    (hnew : env.newId ≠ uuid.Nil) :
    (env.insertErr = none →
      (WalletPostgres.Create env u db).1 = (env.newId, none) ∧
      (WalletPostgres.Create env u db).1.1 ≠ uuid.Nil ∧
      (WalletPostgres.Create env u db).2.wallets =
        db.wallets ++ [⟨env.newId, u, 0, env.now1, env.now2⟩]) ∧
    (∀ e : Error, env.insertErr = some e →
      (WalletPostgres.Create env u db).1 = (uuid.Nil, some e) ∧
      (WalletPostgres.Create env u db).2.wallets = db.wallets) ∧
    (WalletPostgres.Create env u db).2.transactions = db.transactions := by
  refine ⟨fun h => ?_, fun e h => ?_, ?_⟩
  · simp [WalletPostgres.Create, DB.QueryRow, h, Stmt.returning, Stmt.apply, DB.note, hnew]
  · simp [WalletPostgres.Create, DB.QueryRow, h, DB.note]
  · cases h : env.insertErr <;>
      simp [WalletPostgres.Create, DB.QueryRow, h, Stmt.apply, DB.note]

/-- Witness of `wallet_create_adds_one_row`: user 8 gets wallet 2. -/
theorem wallet_create_adds_one_row_witness :
    (WalletPostgres.Create (Env.ok 2 6 6) 8 oneWallet).1 = (2, none) ∧
    (WalletPostgres.Create (Env.ok 2 6 6) 8 oneWallet).2.wallets = twoWallets.wallets :=
  have h := (wallet_create_adds_one_row (Env.ok 2 6 6) 8 oneWallet (by decide)).1 rfl
  ⟨h.1, h.2.2⟩

/-- Claim C16. When the query executes, `GetAllFromUser(u)` returns without
error the rows of the store whose owner is `u`, in store order, each as often
as the store holds it and with its stored fields: a wallet is listed exactly
when it is in the store and owned by `u`.  For a user without wallets the
sequence is empty.  The tables are not changed. -/
theorem get_all_from_user_lists_own (env : Env) (u : Int) (db : DB)
    (hs : env.selectErr = none) :
    (WalletPostgres.GetAllFromUser env u db).1.2 = none ∧
    elems (WalletPostgres.GetAllFromUser env u db).1.1 =
      db.wallets.filter (fun x => decide (x.UserId = u)) ∧
    (∀ x : models.Wallet, x ∈ elems (WalletPostgres.GetAllFromUser env u db).1.1 ↔
      x ∈ db.wallets ∧ x.UserId = u) ∧
    ((∀ x ∈ db.wallets, x.UserId ≠ u) →
      elems (WalletPostgres.GetAllFromUser env u db).1.1 = []) ∧
    (WalletPostgres.GetAllFromUser env u db).2.wallets = db.wallets ∧
    (WalletPostgres.GetAllFromUser env u db).2.transactions = db.transactions := by
  have hel : elems (WalletPostgres.GetAllFromUser env u db).1.1 =
      db.wallets.filter (fun x => decide (x.UserId = u)) := by
    simp only [WalletPostgres.GetAllFromUser, DB.SelectWallets, hs, Stmt.walletRows]
    cases db.wallets.filter (fun x => decide (x.UserId = u)) <;> rfl
  refine ⟨by simp [WalletPostgres.GetAllFromUser, DB.SelectWallets, hs], hel, fun x => ?_,
    fun hnone => ?_, by simp [WalletPostgres.GetAllFromUser, DB.SelectWallets, hs, DB.note],
    by simp [WalletPostgres.GetAllFromUser, DB.SelectWallets, hs, DB.note]⟩
  · rw [hel]
    simp [List.mem_filter]
  · rw [hel, List.filter_eq_nil_iff]
    intro x hx
    simpa using hnone x hx

/-- Witness of `get_all_from_user_lists_own`: user 8 owns wallet 2 only. -/
theorem get_all_from_user_lists_own_witness :
    elems (WalletPostgres.GetAllFromUser (Env.ok 9 10 11) 8 twoWallets).1.1 =
      [⟨2, 8, 0, 6, 6⟩] :=
  (get_all_from_user_lists_own (Env.ok 9 10 11) 8 twoWallets rfl).2.1.trans (by decide)

/-! ## Reads of the transaction log -/

/-- A read of the log returns the same pair in any two stores with the same
log. -/
theorem transaction_reads_congr (env : Env) (id : uuid.UUID) (db db' : DB)
    (h : db.transactions = db'.transactions) :
    (TransactionPostgres.GetAll env db).1 = (TransactionPostgres.GetAll env db').1 ∧
    (TransactionPostgres.GetById env id db).1 = (TransactionPostgres.GetById env id db').1 := by
  constructor
  · simp only [TransactionPostgres.GetAll, DB.SelectTransactions, Stmt.transactionRows, h]
    cases env.selectErr <;> rfl
  · simp only [TransactionPostgres.GetById, DB.GetTransaction, Stmt.transactionRows, h]
    cases env.selectErr with
    | some e => rfl
    | none =>
      cases db'.transactions.filter (fun t => decide (t.TransactionId = id)) <;> rfl

/-- A read of the log changes neither table. -/
theorem transaction_reads_pure (env : Env) (id : uuid.UUID) (db : DB) :
    (TransactionPostgres.GetAll env db).2.wallets = db.wallets ∧
    (TransactionPostgres.GetAll env db).2.transactions = db.transactions ∧
    (TransactionPostgres.GetById env id db).2.wallets = db.wallets ∧
    (TransactionPostgres.GetById env id db).2.transactions = db.transactions := by
  refine ⟨?_, ?_, ?_, ?_⟩
  · cases h : env.selectErr <;> simp [TransactionPostgres.GetAll, DB.SelectTransactions, h, DB.note]
  · cases h : env.selectErr <;> simp [TransactionPostgres.GetAll, DB.SelectTransactions, h, DB.note]
  · cases h : env.selectErr
    · cases hr : (Stmt.selectTransaction id).transactionRows db <;>
        simp [TransactionPostgres.GetById, DB.GetTransaction, h, hr, DB.note]
    · simp [TransactionPostgres.GetById, DB.GetTransaction, h, DB.note]
  · cases h : env.selectErr
    · cases hr : (Stmt.selectTransaction id).transactionRows db <;>
        simp [TransactionPostgres.GetById, DB.GetTransaction, h, hr, DB.note]
    · simp [TransactionPostgres.GetById, DB.GetTransaction, h, DB.note]

/-- A lookup of a record whose identifier no other record of the log carries
returns that record. -/
theorem GetById_unique (env : Env) (r : models.Transaction) (db : DB)
    (hs : env.selectErr = none) (hr : r ∈ db.transactions)
    (huniq : ∀ x ∈ db.transactions, x.TransactionId = r.TransactionId → x = r) :
    (TransactionPostgres.GetById env r.TransactionId db).1 = (r, none) := by
  have hmem : r ∈ db.transactions.filter fun t => decide (t.TransactionId = r.TransactionId) :=
    List.mem_filter.mpr ⟨hr, by simp⟩
  simp only [TransactionPostgres.GetById, DB.GetTransaction, hs, Stmt.transactionRows]
  cases hl : db.transactions.filter fun t => decide (t.TransactionId = r.TransactionId) with
  | nil => simp [hl] at hmem
  | cons x xs =>
    have hx : x ∈ db.transactions.filter fun t => decide (t.TransactionId = r.TransactionId) := by
      simp [hl]
    have hx' := List.mem_filter.mp hx
    have : x = r := huniq x hx'.1 (by simpa using hx'.2)
    simp [this]

/-- A `Create` that returns without error met no failing call. -/
theorem Create_ok_faults (env : Env) (t : models.TransactionInput) (db : DB)
    (hok : (TransactionPostgres.Create env t db).1.2 = none) :
    env.beginErr = none ∧ env.insertErr = none ∧ env.lockErr = none ∧
      env.updateErr = none ∧ env.commitErr = none := by
  rcases env with ⟨b, i, l, u, d, c, s, id, n1, n2⟩
  cases b <;> cases i <;> cases l <;> cases u <;> cases c <;>
    simp_all [TransactionPostgres.Create, DB.Begin, DB.QueryRow, Tx.Exec, Tx.Commit,
      Tx.Rollback]

/-- Claim C17. `GetAll` and `GetById` on the transaction log change neither
table, so a second call right after the first returns the same pair when both
queries execute; the service methods are the repository methods.  After a
`Create` that succeeds with a fresh identifier, `GetById` of the returned
identifier yields the record with the fields of the input. -/
theorem transaction_reads_repeatable (env env' : Env) (id : uuid.UUID) (db : DB)
    (hs : env.selectErr = none) (hs' : env'.selectErr = none) :
    ((TransactionPostgres.GetAll env db).2.wallets = db.wallets ∧
      (TransactionPostgres.GetAll env db).2.transactions = db.transactions ∧
      (TransactionPostgres.GetById env id db).2.wallets = db.wallets ∧
      (TransactionPostgres.GetById env id db).2.transactions = db.transactions) ∧
    (TransactionPostgres.GetAll env' (TransactionPostgres.GetAll env db).2).1 =
      (TransactionPostgres.GetAll env db).1 ∧
    (TransactionPostgres.GetById env' id (TransactionPostgres.GetById env id db).2).1 =
      (TransactionPostgres.GetById env id db).1 ∧
    ((service.NewService (NewRepository env)).Transaction.GetAll db =
        TransactionPostgres.GetAll env db ∧
      (service.NewService (NewRepository env)).Transaction.GetById id db =
        TransactionPostgres.GetById env id db) ∧
    ∀ (cenv : Env) (t : models.TransactionInput),
      (TransactionPostgres.Create cenv t db).1.2 = none →
      (∀ x ∈ db.transactions, x.TransactionId ≠ cenv.newId) →
      (TransactionPostgres.GetById env (TransactionPostgres.Create cenv t db).1.1
          (TransactionPostgres.Create cenv t db).2).1 =
        (⟨(TransactionPostgres.Create cenv t db).1.1, t.WalletId, t.OperationType, t.Amount,
          cenv.now1⟩, none) := by
  have hpure := transaction_reads_pure env id db
  have hsame : env'.selectErr = env.selectErr := by rw [hs, hs']
  refine ⟨hpure, ?_, ?_, ⟨rfl, rfl⟩, fun cenv t hok hfresh => ?_⟩
  · rw [(transaction_reads_congr env' id _ db hpure.2.1).1]
    simp only [TransactionPostgres.GetAll, hsame]
  · rw [(transaction_reads_congr env' id _ db hpure.2.2.2).2]
    simp only [TransactionPostgres.GetById, hsame]
  · obtain ⟨hb, hi, hl, hu, hc⟩ := Create_ok_faults cenv t db hok
    have hres := Create_result_ok cenv t db hb hi hl hu hc
    have hlog := Create_transactions cenv t db
    simp only [hb, hi, and_self, if_true] at hlog
    rw [hres]
    apply GetById_unique env ⟨cenv.newId, t.WalletId, t.OperationType, t.Amount, cenv.now1⟩ _ hs
    · simp [hlog]
    · intro x hx hid
      rw [hlog] at hx
      rcases List.mem_append.mp hx with h | h
      · exact absurd hid (hfresh x h)
      · simpa using h

/-- Witness of `transaction_reads_repeatable`: two readings of a log with one
record. -/
theorem transaction_reads_repeatable_witness :
    (TransactionPostgres.GetById (Env.ok 3 4 5) 9
        (TransactionPostgres.GetById (Env.ok 9 10 11) 9 oneRecord).2).1 =
      (⟨9, 1, "DEPOSIT", 100, 10⟩, none) :=
  (transaction_reads_repeatable (Env.ok 9 10 11) (Env.ok 3 4 5) 9 oneRecord rfl rfl).2.2.1.trans
    (by decide)

/-- The log is not touched by wallet creation or by a read of the wallets. -/
theorem wallet_ops_transactions (env : Env) (u : Int) (w : uuid.UUID) (db : DB) :
    (WalletPostgres.Create env u db).2.transactions = db.transactions ∧
    (WalletPostgres.GetAllFromUser env u db).2.transactions = db.transactions ∧
    (WalletPostgres.GetByIdFromUser env u w db).2.transactions = db.transactions ∧
    (WalletPostgres.GetById env w db).2.transactions = db.transactions := by
  refine ⟨?_, ?_, ?_, ?_⟩
  · cases h : env.insertErr <;>
      simp [WalletPostgres.Create, DB.QueryRow, h, Stmt.apply, DB.note]
  · cases h : env.selectErr <;>
      simp [WalletPostgres.GetAllFromUser, DB.SelectWallets, h, DB.note]
  · cases h : env.selectErr
    · cases hr : (Stmt.selectWalletOfUser u w).walletRows db <;>
        simp [WalletPostgres.GetByIdFromUser, DB.GetWallet, h, hr, DB.note]
    · simp [WalletPostgres.GetByIdFromUser, DB.GetWallet, h, DB.note]
  · cases h : env.selectErr
    · cases hr : (Stmt.selectWallet w).walletRows db <;>
        simp [WalletPostgres.GetById, DB.GetWallet, h, hr, DB.note]
    · simp [WalletPostgres.GetById, DB.GetWallet, h, DB.note]

/-- The log after `TransactionService.Create` over the Postgres repositories:
the log before it, or that log followed by one record. -/
theorem service_Create_transactions (env : Env) (t : models.TransactionInput) (db : DB) :
    ((service.NewService (NewRepository env)).Transaction.Create t db).2.transactions =
        db.transactions ∨
      ∃ r : models.Transaction,
        ((service.NewService (NewRepository env)).Transaction.Create t db).2.transactions =
          db.transactions ++ [r] := by
  have hget := (wallet_ops_transactions env 0 t.WalletId db).2.2.2
  simp only [service.NewService, service.NewTransactionService, NewRepository,
    service.TransactionService.Create, NewWalletPostgres, NewTransactionPostgres]
  rcases hg : WalletPostgres.GetById env t.WalletId db with ⟨⟨wal, err⟩, db1⟩
  rw [hg] at hget
  cases err with
  | some e => exact Or.inl hget
  | none =>
    simp only
    rw [Create_transactions]
    split_ifs
    · exact Or.inr ⟨_, by rw [hget]⟩
    · exact Or.inl hget

/-- Claim C18. Every operation of the system, successful or failed, leaves the
log as it was or appends one record to it: the records already in the log stay
in place with all their fields. -/
theorem log_is_append_only (op : Operation) (db : DB) :
    (op.run db).transactions = db.transactions ∨
      ∃ r : models.Transaction, (op.run db).transactions = db.transactions ++ [r] := by
  cases op with
  | write op =>
    cases op with
    | createWallet env u => exact Or.inl (wallet_ops_transactions env u 0 db).1
    | recordTransaction env t => exact service_Create_transactions env t db
    | deleteWallet env u w => exact Or.inl (Delete_transactions env u w db)
  | listWallets env u => exact Or.inl (wallet_ops_transactions env u 0 db).2.1
  | getWallet env u w => exact Or.inl (wallet_ops_transactions env u w db).2.2.1
  | listTransactions env => exact Or.inl (transaction_reads_pure env 0 db).2.1
  | getTransaction env id => exact Or.inl (transaction_reads_pure env id db).2.2.2

/-! ## Status mapping of the transaction handlers -/

/-- Claim C19. For a request that binds to an input, whenever the service's
`Create` returns an error, whichever it is, `createTransaction` answers 500
with the message "service failure". -/
theorem create_transaction_failure_is_uniform {σ : Type} (h : handler.Handler σ)
    (parse : String → Option uuid.UUID) (body : Option handler.TransactionBody) (st : σ)
    (input : models.TransactionInput) (e : Error)
    (hbind : handler.BindJSON parse body = some input)
    (herr : (h.services.Transaction.Create input st).1.2 = some e) :
    (handler.Handler.createTransaction h parse body st).1 =
      handler.newErrorResponse http.StatusInternalServerError "service failure" ∧
    (handler.Handler.createTransaction h parse body st).1 =
      ⟨500, .message "service failure"⟩ := by
  rcases hc : h.services.Transaction.Create input st with ⟨⟨id, err⟩, st1⟩
  rw [hc] at herr
  simp only at herr
  subst herr
  simp [handler.Handler.createTransaction, hbind, hc, handler.newErrorResponse,
    http.StatusInternalServerError]

/-- Witness of `create_transaction_failure_is_uniform`: the balance update
fails behind a valid request. -/
theorem create_transaction_failure_is_uniform_witness :
    (handler.Handler.createTransaction (postgresHandler updateFails) parseOne
        (some ⟨some (.string "00000000-0000-0000-0000-000000000001"), some (.string "DEPOSIT"),
          some (.integer 100)⟩) oneWallet).1 = ⟨500, .message "service failure"⟩ :=
  (create_transaction_failure_is_uniform (postgresHandler updateFails) parseOne
    (some ⟨some (.string "00000000-0000-0000-0000-000000000001"), some (.string "DEPOSIT"),
      some (.integer 100)⟩) oneWallet deposit100 (.other "some error")
    (by decide) (by decide)).2

/-- Claim C20. For a path parameter that parses to an identifier,
`getTransactionById` answers 404 "transaction not found" when the service
returns an error whose message is "sql: no rows in result set", 500 "service
failure" when it returns any other error, and 200 with the transaction when it
returns none; so the status is 404 exactly in the first case. -/
theorem get_transaction_by_id_status {σ : Type} (h : handler.Handler σ)
    (parse : String → Option uuid.UUID) (param : String) (st : σ) (id : uuid.UUID)
    (hp : parse param = some id) :
    (∀ e : Error, (h.services.Transaction.GetById id st).1.2 = some e →
      e.Message = "sql: no rows in result set" →
      (handler.Handler.getTransactionById h parse param st).1 =
        ⟨404, .message "transaction not found"⟩) ∧
    (∀ e : Error, (h.services.Transaction.GetById id st).1.2 = some e →
      e.Message ≠ "sql: no rows in result set" →
      (handler.Handler.getTransactionById h parse param st).1 =
        ⟨500, .message "service failure"⟩) ∧
    ((h.services.Transaction.GetById id st).1.2 = none →
      (handler.Handler.getTransactionById h parse param st).1 =
        ⟨200, .transaction (h.services.Transaction.GetById id st).1.1⟩) ∧
    ((handler.Handler.getTransactionById h parse param st).1.status = 404 ↔
      ∃ e : Error, (h.services.Transaction.GetById id st).1.2 = some e ∧
        e.Message = "sql: no rows in result set") := by
  rcases hg : h.services.Transaction.GetById id st with ⟨⟨t, err⟩, st1⟩
  cases err with
  | none =>
    simp [handler.Handler.getTransactionById, hp, hg, http.StatusOK]
  | some e =>
    by_cases hm : e.Message = "sql: no rows in result set" <;>
      simp [handler.Handler.getTransactionById, hp, hg, hm, handler.newErrorResponse,
        http.StatusNotFound, http.StatusInternalServerError]

/-- Witness of `get_transaction_by_id_status`: the record of identifier 1 is
absent from an empty log. -/
theorem get_transaction_by_id_status_witness :
    (handler.Handler.getTransactionById (postgresHandler (Env.ok 9 10 11)) parseOne
        "00000000-0000-0000-0000-000000000001" oneWallet).1 =
      ⟨404, .message "transaction not found"⟩ :=
  (get_transaction_by_id_status (postgresHandler (Env.ok 9 10 11)) parseOne
    "00000000-0000-0000-0000-000000000001" oneWallet 1 (by decide)).1 Error.ErrNoRows
    (by decide) (by decide)

/-! ## Status mapping of the wallet handlers and binding -/

/-- Claim C21. For a user identifier present in the context and a path parameter
that parses to an identifier, `getWalletById` answers 404 "wallet not found"
when the service's error is `sql.ErrNoRows`, 500 "service failure" for every
other error, and 200 with the wallet when there is no error; so the status is
404 exactly when the error is `sql.ErrNoRows`. -/
theorem get_wallet_by_id_status {σ : Type} (h : handler.Handler σ)
    (parse : String → Option uuid.UUID) (u : Int) (param : String) (st : σ) (id : uuid.UUID)
    (hp : parse param = some id) :
    ((h.services.Wallet.GetByIdFromUser u id st).1.2 = some Error.ErrNoRows →
      (handler.Handler.getWalletById h parse (some u) param st).1 =
        ⟨404, .message "wallet not found"⟩) ∧
    (∀ e : Error, (h.services.Wallet.GetByIdFromUser u id st).1.2 = some e →
      e ≠ Error.ErrNoRows →
      (handler.Handler.getWalletById h parse (some u) param st).1 =
        ⟨500, .message "service failure"⟩) ∧
    ((h.services.Wallet.GetByIdFromUser u id st).1.2 = none →
      (handler.Handler.getWalletById h parse (some u) param st).1 =
        ⟨200, .wallet (h.services.Wallet.GetByIdFromUser u id st).1.1⟩) ∧
    ((handler.Handler.getWalletById h parse (some u) param st).1.status = 404 ↔
      (h.services.Wallet.GetByIdFromUser u id st).1.2 = some Error.ErrNoRows) := by
  rcases hg : h.services.Wallet.GetByIdFromUser u id st with ⟨⟨w, err⟩, st1⟩
  cases err with
  | none =>
    simp [handler.Handler.getWalletById, handler.getUserId, hp, hg, http.StatusOK]
  | some e =>
    by_cases hm : e = Error.ErrNoRows <;>
      simp [handler.Handler.getWalletById, handler.getUserId, hp, hg, hm, handler.errorsIs,
        handler.newErrorResponse, http.StatusNotFound, http.StatusInternalServerError]

/-- Witness of `get_wallet_by_id_status`: user 8 asks for wallet 1 of user 7. -/
theorem get_wallet_by_id_status_witness :
    (handler.Handler.getWalletById (postgresHandler (Env.ok 9 10 11)) parseOne (some 8)
        "00000000-0000-0000-0000-000000000001" oneWallet).1 =
      ⟨404, .message "wallet not found"⟩ :=
  (get_wallet_by_id_status (postgresHandler (Env.ok 9 10 11)) parseOne 8
    "00000000-0000-0000-0000-000000000001" oneWallet 1 (by decide)).1 (by decide)

/-- Claim C22, counterexample. With no user identifier in the context and the
path parameter "invalid", which does not parse, `getWalletById` and
`deleteWallet` answer 500 "user id not found", not 400 "invalid id param": the
identity check comes before the parameter is parsed. -/
theorem malformed_id_without_user :
    parseOne "invalid" = none ∧
    (handler.Handler.deleteWallet (postgresHandler (Env.ok 9 10 11)) parseOne none "invalid"
        oneWallet).1 = ⟨500, .message "user id not found"⟩ ∧
    (handler.Handler.getWalletById (postgresHandler (Env.ok 9 10 11)) parseOne none "invalid"
        oneWallet).1 = ⟨500, .message "user id not found"⟩ ∧
    (handler.Handler.deleteWallet (postgresHandler (Env.ok 9 10 11)) parseOne none "invalid"
        oneWallet).1 ≠ handler.newErrorResponse 400 "invalid id param" := by
  decide

/-- Claim C22, amended. For a path parameter that does not parse as a UUID,
`getTransactionById` and, when a user identifier is present in the context,
`getWalletById` and `deleteWallet` answer 400 "invalid id param"; whatever the
services are, they have no part in the outcome, and the store is the one before
the request. -/
theorem malformed_id_rejected {σ : Type} (h : handler.Handler σ)
    (parse : String → Option uuid.UUID) (param : String) (st : σ) (u : Int)
    (hp : parse param = none) :
    handler.Handler.getTransactionById h parse param st =
      (handler.newErrorResponse http.StatusBadRequest "invalid id param", st) ∧
    handler.Handler.getWalletById h parse (some u) param st =
      (handler.newErrorResponse http.StatusBadRequest "invalid id param", st) ∧
    handler.Handler.deleteWallet h parse (some u) param st =
      (handler.newErrorResponse http.StatusBadRequest "invalid id param", st) := by
  simp [handler.Handler.getTransactionById, handler.Handler.getWalletById,
    handler.Handler.deleteWallet, handler.getUserId, hp]

/-- Witness of `malformed_id_rejected`: the parameter "invalid". -/
theorem malformed_id_rejected_witness :
    handler.Handler.deleteWallet (postgresHandler (Env.ok 9 10 11)) parseOne (some 7) "invalid"
        oneWallet = (⟨400, .message "invalid id param"⟩, oneWallet) :=
  (malformed_id_rejected (postgresHandler (Env.ok 9 10 11)) parseOne "invalid" oneWallet 7
    (by decide)).2.2

/-- Claim C23. A create-transaction body that omits `walletId`, `operationType`
or `amount`, or in which one of them decodes to the zero value of its field, is
answered with 400 "invalid input body"; whatever the services are, `Create` has
no part in the outcome, and the store is the one before the request. -/
theorem missing_field_rejected {σ : Type} (h : handler.Handler σ)
    (parse : String → Option uuid.UUID) (b : handler.TransactionBody) (st : σ)
    (hmiss : b.walletId = none ∨ b.operationType = none ∨ b.amount = none ∨
      handler.decodeUUID parse b.walletId = some uuid.Nil ∨
      handler.decodeString b.operationType = some "" ∨
      handler.decodeInt64 b.amount = some 0) :
    handler.Handler.createTransaction h parse (some b) st =
      (handler.newErrorResponse http.StatusBadRequest "invalid input body", st) := by
  have hzero : handler.decodeUUID parse b.walletId = some uuid.Nil ∨
      handler.decodeString b.operationType = some "" ∨
      handler.decodeInt64 b.amount = some 0 := by
    rcases hmiss with h1 | h1 | h1 | h1 | h1 | h1
    · exact Or.inl (by rw [h1]; rfl)
    · exact Or.inr (Or.inl (by rw [h1]; rfl))
    · exact Or.inr (Or.inr (by rw [h1]; rfl))
    · exact Or.inl h1
    · exact Or.inr (Or.inl h1)
    · exact Or.inr (Or.inr h1)
  have hbind : handler.BindJSON parse (some b) = none := by
    simp only [handler.BindJSON, handler.decodeTransactionInput]
    rcases hu : handler.decodeUUID parse b.walletId with _ | wid <;>
      rcases ho : handler.decodeString b.operationType with _ | op <;>
      rcases ha : handler.decodeInt64 b.amount with _ | amt <;>
      simp only [hu, ho, ha] at hzero ⊢
    rcases hzero with h1 | h1 | h1 <;>
      simp [handler.validateRequired, Option.some.inj h1]
  simp [handler.Handler.createTransaction, hbind]

/-- Witness of `missing_field_rejected`: the body of the test "Empty fields",
without `amount`. -/
theorem missing_field_rejected_witness :
    handler.Handler.createTransaction (postgresHandler (Env.ok 9 10 11)) parseOne
        (some ⟨some (.string "00000000-0000-0000-0000-000000000001"),
          some (.string "WITHDRAW"), none⟩) oneWallet =
      (⟨400, .message "invalid input body"⟩, oneWallet) :=
  missing_field_rejected (postgresHandler (Env.ok 9 10 11)) parseOne
    ⟨some (.string "00000000-0000-0000-0000-000000000001"), some (.string "WITHDRAW"), none⟩
    oneWallet (Or.inr (Or.inr (Or.inl rfl)))

/-! ## Histories of `recordTransaction` -/

/-- A `recordTransaction` that returns without error is the repository's
`Create`, run without a failing call on the store that the pre-check left. -/
theorem service_Create_ok (env : Env) (t : models.TransactionInput) (db : DB)
    (hok : ((service.NewService (NewRepository env)).Transaction.Create t db).1.2 = none) :
    (service.NewService (NewRepository env)).Transaction.Create t db =
        TransactionPostgres.Create env t (db.note (.Query (.selectWallet t.WalletId))) ∧
      env.beginErr = none ∧ env.insertErr = none ∧ env.lockErr = none ∧
      env.updateErr = none ∧ env.commitErr = none := by
  simp only [service.NewService, service.NewTransactionService, NewRepository,
    service.TransactionService.Create, NewWalletPostgres, NewTransactionPostgres,
    WalletPostgres.GetById, DB.GetWallet] at hok ⊢
  cases hs : env.selectErr with
  | some e => simp [hs] at hok
  | none =>
    simp only [hs] at hok ⊢
    cases hr : (Stmt.selectWallet t.WalletId).walletRows db with
    | nil => simp [hr] at hok
    | cons x xs =>
      simp only [hr] at hok ⊢
      exact ⟨by first | rfl | trivial, Create_ok_faults env t _ hok⟩

/-- One successful `recordTransaction` of type Deposit or Withdraw on an existing
wallet: the signed amount is added to the balance and the record of the call is
appended to the log. -/
theorem service_Create_step (env : Env) (t : models.TransactionInput) (db : DB)
    (wal : models.Wallet) (hw : findWallet db t.WalletId = some wal)
    (hop : t.OperationType = models.Deposit ∨ t.OperationType = models.Withdraw)
    (hok : ((service.NewService (NewRepository env)).Transaction.Create t db).1.2 = none) :
    (∃ wal' : models.Wallet,
      findWallet ((service.NewService (NewRepository env)).Transaction.Create t db).2
          t.WalletId = some wal' ∧
        wal'.Amount = wal.Amount + amountOf models.Deposit [(env, t)] -
          amountOf models.Withdraw [(env, t)]) ∧
    ((service.NewService (NewRepository env)).Transaction.Create t db).2.transactions =
      db.transactions ++ [recordOf (env, t)] := by
  obtain ⟨heq, hb, hi, hl, hu, hc⟩ := service_Create_ok env t db hok
  have hw' : findWallet (db.note (.Query (.selectWallet t.WalletId))) t.WalletId = some wal := by
    rw [← hw]
    exact findWallet_congr _ _ _ rfl
  have hd := create_signed_delta env t _ wal hw' hb hi hl hu hc
  have hlog := Create_transactions env t (db.note (.Query (.selectWallet t.WalletId)))
  simp only [hb, hi, and_self, if_true] at hlog
  rw [heq]
  refine ⟨?_, by rw [hlog]; rfl⟩
  rcases hop with hop | hop
  · refine ⟨_, hd.1 hop, ?_⟩
    simp [amountOf, hop, models.Deposit, models.Withdraw]
  · refine ⟨_, hd.2 hop, ?_⟩
    simp [amountOf, hop, models.Deposit, models.Withdraw]

/-- The sum of the amounts of one type over a history, call by call. -/
theorem amountOf_cons (op : models.OperationType) (c : Env × models.TransactionInput)
    (cs : List (Env × models.TransactionInput)) :
    amountOf op (c :: cs) = amountOf op [c] + amountOf op cs := by
  by_cases h : c.2.OperationType = op <;> simp [amountOf, List.filter_cons, h]

/-- The net effect of a history whose calls all succeed on one existing wallet. -/
theorem history_effect (calls : List (Env × models.TransactionInput)) (w : uuid.UUID) :
    ∀ (db : DB) (wal : models.Wallet), findWallet db w = some wal →
      (∀ c ∈ calls, c.2.WalletId = w) →
      (∀ c ∈ calls, c.2.OperationType = models.Deposit ∨ c.2.OperationType = models.Withdraw) →
      allSucceed calls db →
      (∃ wal' : models.Wallet, findWallet (runAll (recordAll calls) db) w = some wal' ∧
        wal'.Amount =
          wal.Amount + amountOf models.Deposit calls - amountOf models.Withdraw calls) ∧
      (runAll (recordAll calls) db).transactions = db.transactions ++ calls.map recordOf := by
  induction calls with
  | nil =>
    intro db wal hw _ _ _
    exact ⟨⟨wal, hw, by simp [amountOf]⟩, by simp [runAll, recordAll]⟩
  | cons c cs ih =>
    intro db wal hw hon hop hok
    have hcw : c.2.WalletId = w := hon c (List.mem_cons_self _ _)
    obtain ⟨hok1, hoks⟩ := hok
    have hw1 : findWallet db c.2.WalletId = some wal := by rw [hcw]; exact hw
    obtain ⟨⟨wal1, hf1, ha1⟩, hlog1⟩ :=
      service_Create_step c.1 c.2 db wal hw1 (hop c (List.mem_cons_self _ _)) hok1
    rw [hcw] at hf1
    obtain ⟨⟨wal2, hf2, ha2⟩, hlog2⟩ := ih _ wal1 hf1
      (fun x hx => hon x (List.mem_cons_of_mem _ hx))
      (fun x hx => hop x (List.mem_cons_of_mem _ hx)) hoks
    have hrun : runAll (recordAll (c :: cs)) db =
        runAll (recordAll cs)
          ((service.NewService (NewRepository c.1)).Transaction.Create c.2 db).2 := rfl
    rw [hrun]
    refine ⟨⟨wal2, hf2, ?_⟩, ?_⟩
    · rw [ha2, ha1, amountOf_cons models.Deposit c cs, amountOf_cons models.Withdraw c cs]
      ring
    · rw [hlog2, hlog1]
      simp

/-- The wallet that a successful creation with a fresh identifier adds is found
with balance 0. -/
theorem findWallet_created (env : Env) (u : Int) (db : DB) (hi : env.insertErr = none)
    (hfresh : ∀ x ∈ db.wallets, x.WalletId ≠ env.newId) :
    findWallet (WalletPostgres.Create env u db).2 env.newId =
      some ⟨env.newId, u, 0, env.now1, env.now2⟩ := by
  have hnil : (db.wallets.filter fun x => decide (x.WalletId = env.newId)) = [] := by
    rw [List.filter_eq_nil_iff]
    intro x hx
    simpa using hfresh x hx
  simp [findWallet, Stmt.walletRows, WalletPostgres.Create, DB.QueryRow, hi, Stmt.apply,
    DB.note, List.filter_append, hnil]

/-- Claim C24. Starting from a wallet just created with a fresh identifier
(balance 0), after any finite sequence of `recordTransaction` calls on it that
all succeed, with type Deposit or Withdraw and positive amounts, the balance is
the sum of the deposited amounts minus the sum of the withdrawn amounts, and
the log is the log before followed by one record per call, in order, each with
the type and amount of its call. -/
theorem successful_history_net_effect (env : Env) (u : Int) (db : DB)
    (calls : List (Env × models.TransactionInput))
    (hi : env.insertErr = none) (hfresh : ∀ x ∈ db.wallets, x.WalletId ≠ env.newId)
    (hon : ∀ c ∈ calls, c.2.WalletId = env.newId)
    (hop : ∀ c ∈ calls, c.2.OperationType = models.Deposit ∨
      c.2.OperationType = models.Withdraw)
    (_hpos : ∀ c ∈ calls, 0 < c.2.Amount)
    (hok : allSucceed calls (WalletPostgres.Create env u db).2) :
    (∃ wal : models.Wallet,
      findWallet (runAll (recordAll calls) (WalletPostgres.Create env u db).2) env.newId =
          some wal ∧
        wal.Amount = amountOf models.Deposit calls - amountOf models.Withdraw calls) ∧
    (runAll (recordAll calls) (WalletPostgres.Create env u db).2).transactions =
      db.transactions ++ calls.map recordOf ∧
    (∀ c ∈ calls, (recordOf c).OperationType = c.2.OperationType ∧
      (recordOf c).Amount = c.2.Amount ∧ (recordOf c).WalletId = env.newId) := by
  obtain ⟨⟨wal, hf, ha⟩, hlog⟩ := history_effect calls env.newId _ _
    (findWallet_created env u db hi hfresh) hon hop hok
  refine ⟨⟨wal, hf, by simpa using ha⟩, ?_, fun c hc => ⟨rfl, rfl, hon c hc⟩⟩
  rw [hlog, (wallet_ops_transactions env u 0 db).1]

/-- Witness of `successful_history_net_effect`: wallet 1 is created, then
deposit 100 and withdraw 30 give balance 70 and two records. -/
theorem successful_history_net_effect_witness :
    (∃ wal : models.Wallet,
      findWallet (runAll (recordAll depositThenWithdraw)
          (WalletPostgres.Create (Env.ok 1 5 5) 7 DB.empty).2) 1 = some wal ∧
        wal.Amount = 70) ∧
    (runAll (recordAll depositThenWithdraw)
        (WalletPostgres.Create (Env.ok 1 5 5) 7 DB.empty).2).transactions =
      [⟨9, 1, "DEPOSIT", 100, 10⟩, ⟨12, 1, "WITHDRAW", 30, 13⟩] :=
  have h := successful_history_net_effect (Env.ok 1 5 5) 7 DB.empty depositThenWithdraw rfl
    (by decide) (by decide) (by decide) (by decide) ⟨by decide, by decide, trivial⟩
  ⟨h.1.imp fun _ hw => ⟨hw.1, hw.2.trans (by decide)⟩, h.2.1.trans (by decide)⟩

/-! ## Steps of `TransactionPostgres.Create` -/

/-- No statement writes to the journal of calls. -/
theorem apply_journal (q : Stmt) (db : DB) : (q.apply db).journal = db.journal := by
  cases q <;> rfl

/-- Claim C25. When `Create` returns an error `e`, it returns `uuid.Nil` with
it, and `e` is the error of the first failing step in the order begin, insert,
lock, update, commit; the calls issued stop there: nothing after a failed
begin, a rollback and no commit after a failed insert, lock or update, and
nothing after a failed commit.  With no failing step the five calls are issued
in that order. -/
theorem create_stops_at_first_failure (env : Env) (t : models.TransactionInput) (db : DB)
    (e : Error) (herr : (TransactionPostgres.Create env t db).1.2 = some e) :
    (TransactionPostgres.Create env t db).1.1 = uuid.Nil ∧
    ((env.beginErr = some e ∧
        (TransactionPostgres.Create env t db).2.journal = db.journal ++ [.Begin]) ∨
      (env.beginErr = none ∧ env.insertErr = some e ∧
        (TransactionPostgres.Create env t db).2.journal = db.journal ++
          [.Begin,
            .Query (.insertTransaction env.newId t.WalletId t.OperationType t.Amount env.now1),
            .Rollback]) ∨
      (env.beginErr = none ∧ env.insertErr = none ∧ env.lockErr = some e ∧
        (TransactionPostgres.Create env t db).2.journal = db.journal ++
          [.Begin,
            .Query (.insertTransaction env.newId t.WalletId t.OperationType t.Amount env.now1),
            .Exec (.lockWallet t.WalletId), .Rollback]) ∨
      (env.beginErr = none ∧ env.insertErr = none ∧ env.lockErr = none ∧
        env.updateErr = some e ∧
        (TransactionPostgres.Create env t db).2.journal = db.journal ++
          [.Begin,
            .Query (.insertTransaction env.newId t.WalletId t.OperationType t.Amount env.now1),
            .Exec (.lockWallet t.WalletId), .Exec (updateQuery t env.now2), .Rollback]) ∨
      (env.beginErr = none ∧ env.insertErr = none ∧ env.lockErr = none ∧
        env.updateErr = none ∧ env.commitErr = some e ∧
        (TransactionPostgres.Create env t db).2.journal = db.journal ++
          [.Begin,
            .Query (.insertTransaction env.newId t.WalletId t.OperationType t.Amount env.now1),
            .Exec (.lockWallet t.WalletId), .Exec (updateQuery t env.now2), .Commit])) ∧
    ∀ (newId : uuid.UUID) (now1 now2 : Time),
      (TransactionPostgres.Create (Env.ok newId now1 now2) t db).2.journal = db.journal ++
        [.Begin, .Query (.insertTransaction newId t.WalletId t.OperationType t.Amount now1),
          .Exec (.lockWallet t.WalletId), .Exec (updateQuery t now2), .Commit] := by
  refine ⟨?_, ?_, fun newId now1 now2 => ?_⟩
  · rcases env with ⟨b, i, l, u, d, c, s, id, n1, n2⟩
    cases b <;> cases i <;> cases l <;> cases u <;> cases c <;>
      simp_all [TransactionPostgres.Create, DB.Begin, DB.QueryRow, Tx.Exec, Tx.Commit,
        Tx.Rollback]
  · rcases env with ⟨b, i, l, u, d, c, s, id, n1, n2⟩
    cases b <;> cases i <;> cases l <;> cases u <;> cases c <;>
      simp_all [TransactionPostgres.Create, DB.Begin, DB.QueryRow, Tx.Exec, Tx.Commit,
        Tx.Rollback, DB.note, applyAll, apply_lockWallet, apply_journal]
  · simp [TransactionPostgres.Create, Env.ok, DB.Begin, DB.QueryRow, Tx.Exec, Tx.Commit,
      DB.note, applyAll, apply_lockWallet, apply_journal]

/-- Witness of `create_stops_at_first_failure`: the update fails, so a rollback
follows it and no commit is issued. -/
theorem create_stops_at_first_failure_witness :
    (TransactionPostgres.Create updateFails deposit100 oneWallet).1.1 = uuid.Nil :=
  (create_stops_at_first_failure updateFails deposit100 oneWallet (.other "some error")
    (by decide)).1

/-- A `Create` that returns an error met a failing call. -/
theorem Create_err_faults (env : Env) (t : models.TransactionInput) (db : DB) (e : Error)
    (herr : (TransactionPostgres.Create env t db).1.2 = some e) :
    ¬ (env.beginErr = none ∧ env.insertErr = none ∧ env.lockErr = none ∧
      env.updateErr = none ∧ env.commitErr = none) := by
  rintro ⟨hb, hi, hl, hu, hc⟩
  rw [Create_result_ok env t db hb hi hl hu hc] at herr
  simp at herr

/-- The update statement changes nothing when no row has the identifier of the
input. -/
theorem updateQuery_no_row (t : models.TransactionInput) (now : Time) (db : DB)
    (hno : ∀ w ∈ db.wallets, w.WalletId ≠ t.WalletId) :
    ((updateQuery t now).apply db).wallets = db.wallets := by
  rcases updateQuery_cases t now with ⟨_, hq⟩ | ⟨_, hq⟩ | ⟨_, _, hq⟩ <;>
    simp only [hq, Stmt.apply]
  all_goals
    conv_rhs => rw [← List.map_id db.wallets]
    exact List.map_congr_left fun w hw => by simp [hno w hw]

/-- Claim C26. A successful `Create` of type Deposit or Withdraw on an existing
wallet `w` leaves the row of `w` with the same identifier, owner and creation
time, sets its `UpdatedAt` to the time supplied for the update, and leaves the
rows of every other wallet as they were. -/
theorem balance_mutation_frame (env : Env) (t : models.TransactionInput) (db : DB)
    (wal : models.Wallet) (hw : findWallet db t.WalletId = some wal)
    (hop : t.OperationType = models.Deposit ∨ t.OperationType = models.Withdraw)
    (hok : (TransactionPostgres.Create env t db).1.2 = none) :
    (∃ wal' : models.Wallet,
      findWallet (TransactionPostgres.Create env t db).2 t.WalletId = some wal' ∧
        wal'.WalletId = wal.WalletId ∧ wal'.UserId = wal.UserId ∧
        wal'.CreatedAt = wal.CreatedAt ∧ wal'.UpdatedAt = env.now2) ∧
    (∀ other : uuid.UUID, other ≠ t.WalletId →
      (Stmt.selectWallet other).walletRows (TransactionPostgres.Create env t db).2 =
        (Stmt.selectWallet other).walletRows db) ∧
    (TransactionPostgres.Create env t db).2.wallets.length = db.wallets.length := by
  obtain ⟨hb, hi, hl, hu, hc⟩ := Create_ok_faults env t db hok
  have hd := create_signed_delta env t db wal hw hb hi hl hu hc
  refine ⟨?_, fun other ho => Create_frame env t db other ho, ?_⟩
  · rcases hop with hop | hop
    · exact ⟨_, hd.1 hop, rfl, rfl, rfl, rfl⟩
    · exact ⟨_, hd.2 hop, rfl, rfl, rfl, rfl⟩
  · rw [Create_wallets]
    simp only [hb, hi, hl, hu, hc, and_self, if_true]
    rcases updateQuery_cases t env.now2 with ⟨_, hq⟩ | ⟨_, hq⟩ | ⟨_, _, hq⟩ <;>
      simp [hq, Stmt.apply]

/-- Witness of `balance_mutation_frame`: a deposit of 100 on wallet 1. -/
theorem balance_mutation_frame_witness :
    ∃ wal' : models.Wallet,
      findWallet (TransactionPostgres.Create (Env.ok 9 10 11) deposit100 oneWallet).2
          deposit100.WalletId = some wal' ∧
        wal'.WalletId = 1 ∧ wal'.UserId = 7 ∧ wal'.CreatedAt = 5 ∧ wal'.UpdatedAt = 11 :=
  (balance_mutation_frame (Env.ok 9 10 11) deposit100 oneWallet ⟨1, 7, 0, 5, 5⟩
    (by decide) (Or.inl rfl) (by decide)).1

/-- Claim C27. Evaluation of the listing on a store whose log is empty: the
repository returns the `nil` slice without error, which has no element, and the
handler built over service and repository answers 200 with the body
`{"data":null}`, not `{"data":[]}`. -/
theorem empty_listing_is_null :
    oneWallet.transactions = [] ∧
    (TransactionPostgres.GetAll (Env.ok 9 10 11) oneWallet).1 = (none, none) ∧
    elems (TransactionPostgres.GetAll (Env.ok 9 10 11) oneWallet).1.1 = [] ∧
    (handler.Handler.getAllTransactions (postgresHandler (Env.ok 9 10 11)) oneWallet).1 =
      ⟨200, .transactions none⟩ ∧
    (handler.Handler.getAllTransactions (postgresHandler (Env.ok 9 10 11)) oneWallet).1 ≠
      ⟨200, .transactions (some [])⟩ := by
  decide

/-- Claim C28. When `Create` returns an error, the table of wallets is the one
before the call: every balance and every `UpdatedAt` is unchanged.  The lock
and the update were issued on the transactional handle only: the journal holds
no statement on `wallets` sent outside the scope. -/
theorem create_error_keeps_wallets (env : Env) (t : models.TransactionInput) (db : DB)
    (e : Error) (herr : (TransactionPostgres.Create env t db).1.2 = some e) :
    (TransactionPostgres.Create env t db).2.wallets = db.wallets ∧
    (∀ w ∈ db.wallets, ∃ w' ∈ (TransactionPostgres.Create env t db).2.wallets,
      w'.WalletId = w.WalletId ∧ w'.Amount = w.Amount ∧ w'.UpdatedAt = w.UpdatedAt) ∧
    (∀ c ∈ (TransactionPostgres.Create env t db).2.journal.drop db.journal.length,
      c ≠ .Query (.lockWallet t.WalletId) ∧ c ≠ .Query (updateQuery t env.now2)) := by
  have hw : (TransactionPostgres.Create env t db).2.wallets = db.wallets := by
    rw [Create_wallets, if_neg (Create_err_faults env t db e herr)]
  refine ⟨hw, fun w hwm => ⟨w, by rw [hw]; exact hwm, rfl, rfl, rfl⟩, ?_⟩
  have hq : ∀ n, updateQuery t n ≠
      Stmt.insertTransaction env.newId t.WalletId t.OperationType t.Amount env.now1 := by
    intro n
    rcases updateQuery_cases t n with ⟨_, hq⟩ | ⟨_, hq⟩ | ⟨_, _, hq⟩ <;> simp [hq]
  have hq' := hq env.now2
  rcases env with ⟨b, i, l, u, d, c, s, id, n1, n2⟩
  cases b <;> cases i <;> cases l <;> cases u <;> cases c <;>
    simp_all [TransactionPostgres.Create, DB.Begin, DB.QueryRow, Tx.Exec, Tx.Commit,
      Tx.Rollback, DB.note, applyAll, apply_lockWallet, apply_journal, Ne.symm]

/-- Witness of `create_error_keeps_wallets`: the update fails. -/
theorem create_error_keeps_wallets_witness :
    (TransactionPostgres.Create updateFails deposit100 oneWallet).2.wallets =
      oneWallet.wallets :=
  (create_error_keeps_wallets updateFails deposit100 oneWallet (.other "some error")
    (by decide)).1

/-- Claim C29. For an input whose operation type is neither Deposit nor
Withdraw, the update statement is the empty query and no wallet row changes,
whatever the outcome of the calls.  When begin, insert and lock succeed, the
record is in the log and the calls issued are begin, the insert, the lock and
the empty statement, in that order; when the empty statement is accepted, the
next and last call is the commit, and when the commit succeeds `Create` returns
the new identifier without error. -/
theorem unknown_operation_type_at_repository (env : Env) (t : models.TransactionInput)
    (db : DB) (hd : t.OperationType ≠ models.Deposit) (hw : t.OperationType ≠ models.Withdraw) :
    updateQuery t env.now2 = .empty ∧
    (TransactionPostgres.Create env t db).2.wallets = db.wallets ∧
    (env.beginErr = none → env.insertErr = none → env.lockErr = none →
      (TransactionPostgres.Create env t db).2.transactions =
          db.transactions ++ [⟨env.newId, t.WalletId, t.OperationType, t.Amount, env.now1⟩] ∧
        ∃ rest : List Call,
          (TransactionPostgres.Create env t db).2.journal = db.journal ++
            [.Begin,
              .Query (.insertTransaction env.newId t.WalletId t.OperationType t.Amount
                env.now1),
              .Exec (.lockWallet t.WalletId), .Exec .empty] ++ rest) ∧
    (env.beginErr = none → env.insertErr = none → env.lockErr = none →
      env.updateErr = none →
      (TransactionPostgres.Create env t db).2.journal = db.journal ++
          [.Begin,
            .Query (.insertTransaction env.newId t.WalletId t.OperationType t.Amount env.now1),
            .Exec (.lockWallet t.WalletId), .Exec .empty, .Commit] ∧
        (env.commitErr = none →
          (TransactionPostgres.Create env t db).1 = (env.newId, none))) := by
  have hq : ∀ n, updateQuery t n = .empty := fun n => by simp [updateQuery, hd, hw]
  refine ⟨hq _, ?_, fun hb hi hl => ⟨?_, ?_⟩, fun hb hi hl hu => ⟨?_, fun hc => ?_⟩⟩
  · rw [Create_wallets, hq]
    split_ifs <;> rfl
  · rw [Create_transactions]
    simp [hb, hi]
  · have h2 := hq env.now2
    rcases env with ⟨b, i, l, u, d, c, s, id, n1, n2⟩
    simp only at hb hi hl h2
    subst hb hi hl
    cases u <;> cases c <;>
      simp [TransactionPostgres.Create, DB.Begin, DB.QueryRow, Tx.Exec, Tx.Commit,
        Tx.Rollback, DB.note, applyAll, apply_lockWallet, apply_journal, h2]
  · have h2 := hq env.now2
    rcases env with ⟨b, i, l, u, d, c, s, id, n1, n2⟩
    simp only at hb hi hl hu h2
    subst hb hi hl hu
    cases c <;>
      simp [TransactionPostgres.Create, DB.Begin, DB.QueryRow, Tx.Exec, Tx.Commit,
        DB.note, applyAll, apply_lockWallet, apply_journal, h2]
  · exact Create_result_ok env t db hb hi hl hu hc

/-- Witness of `unknown_operation_type_at_repository`: the type "INCORRECT". -/
theorem unknown_operation_type_at_repository_witness :
    (TransactionPostgres.Create (Env.ok 9 10 11) ⟨1, "INCORRECT", 100⟩ oneWallet).1 =
      (9, none) ∧
    (TransactionPostgres.Create (Env.ok 9 10 11) ⟨1, "INCORRECT", 100⟩ oneWallet).2.wallets =
      oneWallet.wallets :=
  have h := unknown_operation_type_at_repository (Env.ok 9 10 11) ⟨1, "INCORRECT", 100⟩
    oneWallet (by decide) (by decide)
  ⟨(h.2.2.2 rfl rfl rfl rfl).2 rfl, h.2.1⟩

/-- Claim C30. Called with a wallet identifier that has no row, and with every
call succeeding, the repository's `Create` returns the new identifier without
error, appends a record that references the identifier, and leaves the table of
wallets as it was.  On the same store the service's `Create` stops at its
pre-check with `sql.ErrNoRows` and changes neither table. -/
theorem repository_create_without_wallet (env : Env) (t : models.TransactionInput) (db : DB)
    (hno : ∀ w ∈ db.wallets, w.WalletId ≠ t.WalletId)
    (hb : env.beginErr = none) (hi : env.insertErr = none) (hl : env.lockErr = none)
    (hu : env.updateErr = none) (hc : env.commitErr = none) :
    (TransactionPostgres.Create env t db).1 = (env.newId, none) ∧
    (TransactionPostgres.Create env t db).2.transactions =
      db.transactions ++ [⟨env.newId, t.WalletId, t.OperationType, t.Amount, env.now1⟩] ∧
    (TransactionPostgres.Create env t db).2.wallets = db.wallets ∧
    (env.selectErr = none →
      ((service.NewService (NewRepository env)).Transaction.Create t db).1 =
          (uuid.Nil, some Error.ErrNoRows) ∧
        ((service.NewService (NewRepository env)).Transaction.Create t db).2.transactions =
          db.transactions ∧
        ((service.NewService (NewRepository env)).Transaction.Create t db).2.wallets =
          db.wallets) := by
  refine ⟨Create_result_ok env t db hb hi hl hu hc, ?_, ?_, fun hs => ?_⟩
  · rw [Create_transactions]
    simp [hb, hi]
  · rw [Create_wallets]
    simp only [hb, hi, hl, hu, hc, and_self, if_true]
    exact updateQuery_no_row t env.now2 db hno
  · have hrows : (Stmt.selectWallet t.WalletId).walletRows db = [] := by
      simp only [Stmt.walletRows, List.filter_eq_nil_iff]
      intro w hw
      simpa using hno w hw
    simp [service.NewService, service.NewTransactionService, NewRepository,
      service.TransactionService.Create, NewWalletPostgres, WalletPostgres.GetById,
      DB.GetWallet, hs, hrows, DB.note]

/-- Witness of `repository_create_without_wallet`: a deposit on the absent
wallet 2. -/
theorem repository_create_without_wallet_witness :
    (TransactionPostgres.Create (Env.ok 9 10 11) ⟨2, models.Deposit, 100⟩ oneWallet).1 =
      (9, none) ∧
    (TransactionPostgres.Create (Env.ok 9 10 11) ⟨2, models.Deposit, 100⟩ oneWallet).2.transactions
      = [⟨9, 2, "DEPOSIT", 100, 10⟩] ∧
    (TransactionPostgres.Create (Env.ok 9 10 11) ⟨2, models.Deposit, 100⟩ oneWallet).2.wallets =
      oneWallet.wallets :=
  have h := repository_create_without_wallet (Env.ok 9 10 11) ⟨2, models.Deposit, 100⟩
    oneWallet (by decide) rfl rfl rfl rfl rfl
  ⟨h.1, h.2.1, h.2.2.1⟩

end ledger
